import Mathlib

/-!
Verification development for the Ladon networking layer
(`src/ladon/networking/config.py` and `src/ladon/networking/client.py`).

The Python code is shallowly embedded: dataclass fields become structure
fields, float quantities become rationals, `None` becomes `Option`,
raised `ValueError`s become `Except.error`, and Python `dict`s become
association lists with first-key-wins lookup and in-place-update / append
semantics mirroring CPython insertion order.
-/

namespace Ladon

/-- Resolved timeout preference as returned by `HttpClient._get_timeout`:
either no timeout (`None`), a scalar (`float`), or a `(connect, read)`
pair (`tuple[float, float]`). -/
inductive TimeoutValue where
  | noTimeout : TimeoutValue
  | scalar (q : ℚ) : TimeoutValue
  | pair (connect read : ℚ) : TimeoutValue
deriving Repr, DecidableEq

/-- Raw constructor arguments of the `HttpClientConfig` dataclass
(`config.py`, lines 16-30), before `__post_init__` validation runs.
Header mappings are association lists of header name/value pairs. -/
structure HttpClientConfigData where
  user_agent : Option String := none
  default_headers : List (String × String) := []
  retries : ℤ := 0
  verify_tls : Bool := true
  connect_timeout_seconds : Option ℚ := none
  read_timeout_seconds : Option ℚ := none
  backoff_base_seconds : ℚ := 0
  timeout_seconds : Option ℚ := none
deriving Repr, DecidableEq

namespace HttpClientConfigData

/-- Validation performed by `HttpClientConfig.__post_init__`
(`config.py`, lines 32-65).  Each raised `ValueError` becomes an
`Except.error` carrying the exception message; on success the validated
instance is returned (the final header-freezing step copies the headers,
which for the pure value model is the identity; object-identity aspects
of the freeze are modelled separately by `HeaderHeap`). -/
def postInit (c : HttpClientConfigData) : Except String HttpClientConfigData :=
  if c.retries < 0 then
    .error "retries must be >= 0"
  else if c.backoff_base_seconds < 0 then
    .error "backoff_base_seconds must be >= 0"
  else if c.connect_timeout_seconds.isSome ≠ c.read_timeout_seconds.isSome then
    .error "connect_timeout_seconds and read_timeout_seconds must be set together"
  else if (match c.timeout_seconds with | some t => decide (t ≤ 0) | none => false) then
    .error "timeout_seconds must be > 0 when provided"
  else if (match c.connect_timeout_seconds with | some t => decide (t ≤ 0) | none => false) then
    .error "connect_timeout_seconds must be > 0 when provided"
  else if (match c.read_timeout_seconds with | some t => decide (t ≤ 0) | none => false) then
    .error "read_timeout_seconds must be > 0 when provided"
  else
    .ok c

/-- Resolution of the per-call timeout, `HttpClient._get_timeout`
(`client.py`, lines 42-58).  A non-positive override raises
`ValueError`, modelled as `Except.error`. -/
def getTimeout (c : HttpClientConfigData) (override : Option ℚ) :
    Except String TimeoutValue :=
  match override with
  | some o =>
      if o ≤ 0 then .error "timeout override must be > 0 when provided"
      else .ok (.scalar o)
  | none =>
      match c.connect_timeout_seconds, c.read_timeout_seconds with
      | some ct, some rt => .ok (.pair ct rt)
      | _, _ =>
          match c.timeout_seconds with
          | some t => .ok (.scalar t)
          | none => .ok .noTimeout

/-- Total number of attempts for one request, `HttpClient._max_attempts`
(`client.py`, lines 60-62): `1 + max(0, retries)`. -/
def maxAttempts (c : HttpClientConfigData) : ℕ :=
  1 + (max 0 c.retries).toNat

end HttpClientConfigData

/-- Values stored in a metadata dictionary (Python `dict[str, Any]`). -/
inductive MetaValue where
  | str (s : String) : MetaValue
  | int (n : ℤ) : MetaValue
  | rat (q : ℚ) : MetaValue
  | tval (t : TimeoutValue) : MetaValue
  | dict (d : List (String × MetaValue)) : MetaValue

/-- Python `dict[str, Any]` with insertion order: an association list;
lookup returns the first (unique) binding. -/
abbrev Dict := List (String × MetaValue)

/-- Python `meta[k] = v`: replace the binding in place when the key is
present (keys are unique in a dict), otherwise append at the end. -/
def dictSet : Dict → String → MetaValue → Dict
  | [], k, v => [(k, v)]
  | p :: rest, k, v =>
      if p.1 = k then (k, v) :: rest else p :: dictSet rest k v

/-- Python `meta.setdefault(k, v)`: insert at the end only when the key
is absent. -/
def dictSetdefault : Dict → String → MetaValue → Dict
  | [], k, v => [(k, v)]
  | p :: rest, k, v =>
      if p.1 = k then p :: rest else p :: dictSetdefault rest k v

/-- Python `meta[k]` lookup (as an `Option`). -/
def dictGet : Dict → String → Option MetaValue
  | [], _ => none
  | p :: rest, k => if p.1 = k then some p.2 else dictGet rest k

/-- Transport response as consumed by the engine: the duck-typed subset of
`requests.Response` that `client.py` reads (status_code, reason, url,
elapsed, content, headers).  `elapsed_s = none` models a response object
on which reading `elapsed` raises `AttributeError` (`client.py`,
lines 109-112); body bytes are modelled as a `String`. -/
structure Response where
  status_code : ℤ
  reason : String
  url : String
  elapsed_s : Option ℚ
  content : String
  headers : List (String × String)
deriving Repr, DecidableEq

/-- One `requests.exceptions.RequestException` as the engine observes it:
`isTimeout` / `isConnError` are the two `isinstance` tests the code
performs (a `ConnectTimeout` would satisfy both), `typeName` is
`type(e).__name__`, `msg` is `str(e)`, and `response` is `e.response`. -/
structure RequestException where
  isTimeout : Bool
  isConnError : Bool
  typeName : String
  msg : String
  response : Option Response
deriving Repr, DecidableEq

/-- Outcome of one invocation of the underlying transport call
(`request_fn()` in `client.py`): a response, a raised
`requests.exceptions.RequestException`, or a raised exception outside
that family (with its type name and message). -/
inductive TransportOutcome where
  | success (r : Response) : TransportOutcome
  | reqExc (e : RequestException) : TransportOutcome
  | otherExc (typeName msg : String) : TransportOutcome
deriving Repr, DecidableEq

/-- Modelled from the spec: the typed error taxonomy of
`ladon.networking.errors` (module not present under `src/`; only its
class names are imported by `client.py`).  Per the spec, the kinds are
request-timeout, retryable-transport and generic client error, each
wrapping the original failure's message. -/
inductive LadonError where
  | requestTimeout (msg : String) : LadonError
  | retryableHttp (msg : String) : LadonError
  | httpClient (msg : String) : LadonError
deriving Repr, DecidableEq

/-- Modelled from the spec: the `Result` union of `ladon.networking.types`
(module not present under `src/`): `ok` discriminates success (`Ok`,
holding a value) from failure (`Err`, holding an error), and both carry
the metadata record.  The model additionally records the observable
interaction trace of one call: `attemptsMade` counts invocations of the
transport call and `sleeps` lists the backoff delays actually slept, in
order. -/
structure RunResult (V : Type) where
  ok : Bool
  value : Option V
  error : Option LadonError
  meta : Dict
  attemptsMade : ℕ
  sleeps : List ℚ

/-- Python `str.upper()` on a method name: upper-case every character
(character-list form of `String.toUpper`, kept kernel-computable). -/
def strUpper (s : String) : String :=
  ⟨s.data.map Char.toUpper⟩

namespace HttpClient

open HttpClientConfigData

/-- Retry eligibility test, `HttpClient._is_retryable_exception`
(`client.py`, lines 64-73): the upper-cased method must be GET or HEAD
and the exception an instance of `Timeout` or `ConnectionError`. -/
def isRetryableException (method : String) (e : RequestException) : Bool :=
  if ¬ (strUpper method = "GET" ∨ strUpper method = "HEAD") then false
  else e.isTimeout || e.isConnError

/-- Backoff delay slept by `HttpClient._sleep_between_attempts`
(`client.py`, lines 75-80): `none` when the base is non-positive (the
function returns without sleeping), otherwise
`backoff_base * 2 ^ max 0 (attempt - 1)` (truncated `ℕ` subtraction
coincides with Python's `max(0, attempt - 1)`). -/
def sleepDelay (c : HttpClientConfigData) (attempt : ℕ) : Option ℚ :=
  if c.backoff_base_seconds ≤ 0 then none
  else some (c.backoff_base_seconds * 2 ^ (attempt - 1))

/-- First block of `HttpClient._build_meta` (`client.py`, lines 93-97):
the four canonical assignments into the fresh dict. -/
def metaBase (method requestUrl : String) (attempts : ℕ)
    (timeout : TimeoutValue) : Dict :=
  let meta : Dict := []
  let meta := dictSet meta "method" (.str method)
  let meta := dictSet meta "url" (.str requestUrl)
  let meta := dictSet meta "attempts" (.int attempts)
  dictSet meta "timeout_s" (.tval timeout)

/-- Context block of `HttpClient._build_meta` (`client.py`,
lines 98-102): the `if context:` guard treats both `None` and an empty
mapping as falsy, so the context is a plain list with `[]` for both;
when truthy, the context is stored verbatim under `"context"` and then
each entry is `setdefault`-merged at top level. -/
def metaWithContext (meta : Dict) (context : Dict) : Dict :=
  if context.isEmpty then meta
  else
    let meta := dictSet meta "context" (.dict context)
    context.foldl (fun m kv => dictSetdefault m kv.1 kv.2) meta

/-- Response block of `HttpClient._build_meta` (`client.py`,
lines 104-112): status, status_code, response url (overwriting the
request url), reason, and — unless reading `elapsed` raises
`AttributeError` — the elapsed seconds. -/
def metaWithResponse (meta : Dict) (response : Option Response) : Dict :=
  match response with
  | some r =>
      let meta := dictSet meta "status" (.int r.status_code)
      let meta := dictSet meta "status_code" (.int r.status_code)
      let meta := dictSet meta "url" (.str r.url)
      let meta := dictSet meta "reason" (.str r.reason)
      match r.elapsed_s with
      | some q => dictSet meta "elapsed_s" (.rat q)
      | none => meta
  | none => meta

/-- Final-error block of `HttpClient._build_meta` (`client.py`,
lines 113-114). -/
def metaWithFinalError (meta : Dict) (finalError : Option String) : Dict :=
  match finalError with
  | some fe => dictSet meta "final_error" (.str fe)
  | none => meta

/-- Metadata construction, `HttpClient._build_meta` (`client.py`,
lines 82-116), as the composition of its four straight-line blocks. -/
def buildMeta (method requestUrl : String) (response : Option Response)
    (context : Dict) (attempts : ℕ) (timeout : TimeoutValue)
    (finalError : Option String) : Dict :=
  metaWithFinalError
    (metaWithResponse
      (metaWithContext (metaBase method requestUrl attempts timeout) context)
      response)
    finalError

/-- Keys the engine itself may assign in a metadata record
(`client.py`, lines 94-114): caller-context entries with any other key
are never shadowed. -/
def canonicalMetaKeys : List String :=
  ["method", "url", "attempts", "timeout_s", "context",
   "status", "status_code", "reason", "elapsed_s", "final_error"]

/-- Terminal classification of a `RequestException`,
`HttpClient._handle_request_exception` (`client.py`, lines 139-146):
`isinstance Timeout` is tested first, then `ConnectionError`, then the
generic fallback; each error wraps `str(e)`. -/
def classifyError (e : RequestException) : LadonError :=
  if e.isTimeout then .requestTimeout e.msg
  else if e.isConnError then .retryableHttp e.msg
  else .httpClient e.msg

/-- Failure result built by `HttpClient._handle_request_exception`
(`client.py`, lines 118-146): metadata from `e.response` with
`final_error = type(e).__name__`, and the classified error. -/
def handleRequestException {V : Type} (method requestUrl : String)
    (e : RequestException) (context : Dict) (attempts : ℕ)
    (timeout : TimeoutValue) (sleeps : List ℚ) : RunResult V :=
  { ok := false
    value := none
    error := some (classifyError e)
    meta := buildMeta method requestUrl e.response context attempts timeout
      (some e.typeName)
    attemptsMade := attempts
    sleeps := sleeps }

/-- One traversal of the `for _ in range(self._max_attempts())` loop of
`HttpClient._request` (`client.py`, lines 159-206), with `fuel` the
remaining loop iterations and `attempts` the Python counter so far.
`transport k` is the outcome of `request_fn()` on the k-th invocation.
The `fuel = 0` case is unreachable from `requestRun` (the loop always
returns or breaks on its last iteration); it is given a sentinel value. -/
def requestGo {V : Type} (c : HttpClientConfigData) (method url : String)
    (context : Dict) (timeout : TimeoutValue)
    (transport : ℕ → TransportOutcome) (valueBuilder : Response → V) :
    ℕ → ℕ → List ℚ → RunResult V
  | 0, attempts, sleeps =>
      { ok := false, value := none, error := none, meta := [],
        attemptsMade := attempts, sleeps := sleeps }
  | fuel + 1, attempts, sleeps =>
      let attempts := attempts + 1
      match transport attempts with
      | .success r =>
          { ok := true
            value := some (valueBuilder r)
            error := none
            meta := buildMeta method url (some r) context attempts timeout none
            attemptsMade := attempts
            sleeps := sleeps }
      | .reqExc e =>
          if attempts ≥ c.maxAttempts ∨ ¬ isRetryableException method e then
            handleRequestException method url e context attempts timeout sleeps
          else
            match sleepDelay c attempts with
            | some q =>
                requestGo c method url context timeout transport valueBuilder
                  fuel attempts (sleeps ++ [q])
            | none =>
                requestGo c method url context timeout transport valueBuilder
                  fuel attempts sleeps
      | .otherExc typeName msg =>
          { ok := false
            value := none
            error := some (.httpClient msg)
            meta := buildMeta method url none context attempts timeout
              (some typeName)
            attemptsMade := attempts
            sleeps := sleeps }

/-- Request execution with retries, `HttpClient._request` (`client.py`,
lines 148-206): the loop starts with `attempts = 0` and runs at most
`_max_attempts()` iterations. -/
def requestRun {V : Type} (c : HttpClientConfigData) (method url : String)
    (context : Dict) (timeout : TimeoutValue)
    (transport : ℕ → TransportOutcome) (valueBuilder : Response → V) :
    RunResult V :=
  requestGo c method url context timeout transport valueBuilder
    c.maxAttempts 0 []

/-- Value extractor for GET/POST, `HttpClient._content_value`
(`client.py`, lines 208-210). -/
def contentValue (r : Response) : String := r.content

/-- Value extractor for HEAD, `HttpClient._headers_value`
(`client.py`, lines 212-214). -/
def headersValue (r : Response) : List (String × String) := r.headers

/-- Value extractor for download, `HttpClient._response_value`
(`client.py`, lines 216-218). -/
def responseValue (r : Response) : Response := r

/-- Public operation `HttpClient.get` (`client.py`, lines 220-258):
resolve the timeout (raising on a non-positive override), then run the
request with method GET and the body-bytes value builder. -/
def get (c : HttpClientConfigData) (url : String)
    (timeoutOverride : Option ℚ) (context : Dict)
    (transport : ℕ → TransportOutcome) :
    Except String (RunResult String) := do
  let t ← c.getTimeout timeoutOverride
  pure (requestRun c "GET" url context t transport contentValue)

/-- Public operation `HttpClient.head` (`client.py`, lines 260-299):
method HEAD with the header-mapping value builder. -/
def head (c : HttpClientConfigData) (url : String)
    (timeoutOverride : Option ℚ) (context : Dict)
    (transport : ℕ → TransportOutcome) :
    Except String (RunResult (List (String × String))) := do
  let t ← c.getTimeout timeoutOverride
  pure (requestRun c "HEAD" url context t transport headersValue)

/-- Public operation `HttpClient.post` (`client.py`, lines 301-342):
method POST with the body-bytes value builder. -/
def post (c : HttpClientConfigData) (url : String)
    (timeoutOverride : Option ℚ) (context : Dict)
    (transport : ℕ → TransportOutcome) :
    Except String (RunResult String) := do
  let t ← c.getTimeout timeoutOverride
  pure (requestRun c "POST" url context t transport contentValue)

/-- Public operation `HttpClient.download` (`client.py`, lines 344-381):
runs with method "GET" (not a distinct method) and the response-handle
value builder, requesting a streamed transfer. -/
def download (c : HttpClientConfigData) (url : String)
    (timeoutOverride : Option ℚ) (context : Dict)
    (transport : ℕ → TransportOutcome) :
    Except String (RunResult Response) := do
  let t ← c.getTimeout timeoutOverride
  pure (requestRun c "GET" url context t transport responseValue)

end HttpClient

/-! Object-identity model for header mappings.  `config.py` stores
`MappingProxyType(dict(self.default_headers))` (lines 60-65): a fresh
copy of the caller's mapping wrapped in a read-only proxy.  A
`HeaderHeap` is an explicit store of mapping objects; a reference is an
index into it, and each cell carries its current value together with a
`frozen` flag (`MappingProxyType` rejects item assignment). -/

/-- Store of header-mapping objects: each cell is `(value, frozen)`. -/
structure HeaderHeap where
  cells : List (List (String × String) × Bool)
deriving Repr, DecidableEq

namespace HeaderHeap

/-- Allocate a new mapping object; returns the updated heap and the
fresh reference. -/
def alloc (h : HeaderHeap) (v : List (String × String)) (frozen : Bool) :
    HeaderHeap × ℕ :=
  (⟨h.cells ++ [(v, frozen)]⟩, h.cells.length)

/-- Current value of the mapping at reference `r` (empty for a dangling
reference). -/
def read (h : HeaderHeap) (r : ℕ) : List (String × String) :=
  ((h.cells.get? r).map (fun p => p.1)).getD []

/-- Whether the mapping at reference `r` is frozen. -/
def isFrozen (h : HeaderHeap) (r : ℕ) : Bool :=
  ((h.cells.get? r).map (fun p => p.2)).getD false

/-- Python `d[k] = v` on a plain header dict value: replace the binding
in place when the key is present, otherwise append. -/
def hdrSet (d : List (String × String)) (k v : String) :
    List (String × String) :=
  if d.any (fun p => p.1 = k) then
    d.map (fun p => if p.1 = k then (k, v) else p)
  else
    d ++ [(k, v)]

/-- Python `mapping[k] = v` on the object at `r`: raises `TypeError`
(modelled as `Except.error`) when the object is a read-only proxy,
otherwise updates the stored value in place. -/
def setItem (h : HeaderHeap) (r : ℕ) (k v : String) :
    Except String HeaderHeap :=
  if h.isFrozen r then
    .error "TypeError: mappingproxy object does not support item assignment"
  else
    .ok ⟨h.cells.set r (hdrSet (h.read r) k v, false)⟩

/-- The header-freezing step of `HttpClientConfig.__post_init__`
(`config.py`, lines 60-65): `MappingProxyType(dict(headers))` — read the
caller's mapping at `rcaller`, copy its value into a freshly allocated
object, and freeze the copy.  Returns the updated heap and the reference
the configuration stores in `default_headers`. -/
def freezeCopy (h : HeaderHeap) (rcaller : ℕ) : HeaderHeap × ℕ :=
  h.alloc (h.read rcaller) true

end HeaderHeap

/-! Lemmas about the dictionary model. -/

theorem dictGet_set (d : Dict) (k k2 : String) (v : MetaValue) :
    dictGet (dictSet d k v) k2 = if k2 = k then some v else dictGet d k2 := by
  induction d with
  | nil =>
      by_cases h : k2 = k
      · subst h; simp [dictSet, dictGet]
      · have h2 : ¬k = k2 := fun hh => h hh.symm
        simp [dictSet, dictGet, h, h2]
  | cons p rest ih =>
      by_cases hp : p.1 = k
      · by_cases h : k2 = k
        · subst h; simp [dictSet, dictGet, hp]
        · have h2 : ¬k = k2 := fun hh => h hh.symm
          have h3 : ¬p.1 = k2 := by rw [hp]; exact h2
          simp [dictSet, dictGet, hp, h, h2, h3]
      · by_cases h1 : p.1 = k2
        · have h : ¬k2 = k := fun hh => hp (h1.trans hh)
          simp [dictSet, dictGet, hp, h1, h]
        · simp [dictSet, dictGet, hp, h1, ih]

theorem dictGet_setdefault (d : Dict) (k k2 : String) (v : MetaValue) :
    dictGet (dictSetdefault d k v) k2 =
      if k2 = k then some ((dictGet d k).getD v) else dictGet d k2 := by
  induction d with
  | nil =>
      by_cases h : k2 = k
      · subst h; simp [dictSetdefault, dictGet]
      · have h2 : ¬k = k2 := fun hh => h hh.symm
        simp [dictSetdefault, dictGet, h, h2]
  | cons p rest ih =>
      by_cases hp : p.1 = k
      · by_cases h : k2 = k
        · subst h; simp [dictSetdefault, dictGet, hp]
        · simp [dictSetdefault, dictGet, hp, h]
      · by_cases h : k2 = k
        · subst h; simp [dictSetdefault, dictGet, hp, ih]
        · by_cases h1 : p.1 = k2
          · simp [dictSetdefault, dictGet, hp, h, h1]
          · simp [dictSetdefault, dictGet, hp, h, h1, ih]

theorem dictGet_foldl_setdefault_of_isSome (ctx : Dict) (d : Dict) (k : String)
    (h : (dictGet d k).isSome) :
    dictGet (ctx.foldl (fun m kv => dictSetdefault m kv.1 kv.2) d) k =
      dictGet d k := by
  induction ctx generalizing d with
  | nil => rfl
  | cons kv rest ih =>
      have hstep : dictGet (dictSetdefault d kv.1 kv.2) k = dictGet d k := by
        rw [dictGet_setdefault]
        by_cases hk : k = kv.1
        · subst hk
          obtain ⟨w, hw⟩ := Option.isSome_iff_exists.mp h
          simp [hw]
        · simp [hk]
      calc dictGet ((kv :: rest).foldl (fun m kv => dictSetdefault m kv.1 kv.2) d) k
          = dictGet (rest.foldl (fun m kv => dictSetdefault m kv.1 kv.2)
              (dictSetdefault d kv.1 kv.2)) k := rfl
        _ = dictGet (dictSetdefault d kv.1 kv.2) k := ih _ (by rw [hstep]; exact h)
        _ = dictGet d k := hstep

theorem dictGet_foldl_setdefault_of_mem (ctx : Dict) (d : Dict) (k : String)
    (v : MetaValue) (hnod : (ctx.map Prod.fst).Nodup) (hmem : (k, v) ∈ ctx)
    (hnone : dictGet d k = none) :
    dictGet (ctx.foldl (fun m kv => dictSetdefault m kv.1 kv.2) d) k =
      some v := by
  induction ctx generalizing d with
  | nil => cases hmem
  | cons kv rest ih =>
      simp only [List.map_cons, List.nodup_cons] at hnod
      simp only [List.foldl_cons]
      rcases List.mem_cons.mp hmem with heq | hmem2
      · subst heq
        have hstep : dictGet (dictSetdefault d k v) k = some v := by
          rw [dictGet_setdefault]
          simp [hnone]
        rw [dictGet_foldl_setdefault_of_isSome _ _ _ (by rw [hstep]; rfl), hstep]
      · have hk : ¬k = kv.1 := by
          intro hkk
          exact hnod.1 (hkk ▸ List.mem_map_of_mem Prod.fst hmem2)
        have hstep : dictGet (dictSetdefault d kv.1 kv.2) k = none := by
          rw [dictGet_setdefault]
          simp [hk, hnone]
        exact ih _ hnod.2 hmem2 hstep

/-! Lemmas about metadata construction. -/

namespace HttpClient

theorem metaBase_eq (m u : String) (a : ℕ) (t : TimeoutValue) :
    metaBase m u a t =
      [("method", .str m), ("url", .str u), ("attempts", .int a),
       ("timeout_s", .tval t)] := by
  simp [metaBase, dictSet]

theorem dictGet_metaBase_method (m u : String) (a : ℕ) (t : TimeoutValue) :
    dictGet (metaBase m u a t) "method" = some (.str m) := by
  rw [metaBase_eq]; rfl

theorem dictGet_metaBase_url (m u : String) (a : ℕ) (t : TimeoutValue) :
    dictGet (metaBase m u a t) "url" = some (.str u) := by
  rw [metaBase_eq]; rfl

theorem dictGet_metaBase_attempts (m u : String) (a : ℕ) (t : TimeoutValue) :
    dictGet (metaBase m u a t) "attempts" = some (.int a) := by
  rw [metaBase_eq]; rfl

theorem dictGet_metaBase_timeout (m u : String) (a : ℕ) (t : TimeoutValue) :
    dictGet (metaBase m u a t) "timeout_s" = some (.tval t) := by
  rw [metaBase_eq]; rfl

theorem dictGet_metaBase_of_ne (m u : String) (a : ℕ) (t : TimeoutValue)
    (k : String) (h1 : k ≠ "method") (h2 : k ≠ "url") (h3 : k ≠ "attempts")
    (h4 : k ≠ "timeout_s") : dictGet (metaBase m u a t) k = none := by
  rw [metaBase_eq]
  simp [dictGet, Ne.symm h1, Ne.symm h2, Ne.symm h3, Ne.symm h4]

theorem dictGet_metaWithContext_of_isSome (meta ctx : Dict) (k : String)
    (hk : k ≠ "context") (h : (dictGet meta k).isSome) :
    dictGet (metaWithContext meta ctx) k = dictGet meta k := by
  unfold metaWithContext
  by_cases hec : ctx.isEmpty
  · simp [hec]
  · simp only [hec, Bool.false_eq_true, if_false]
    have hset : dictGet (dictSet meta "context" (.dict ctx)) k = dictGet meta k := by
      rw [dictGet_set]; simp [hk]
    rw [dictGet_foldl_setdefault_of_isSome _ _ _ (by rw [hset]; exact h), hset]

theorem dictGet_metaWithContext_context (meta ctx : Dict) (hne : ctx ≠ []) :
    dictGet (metaWithContext meta ctx) "context" = some (.dict ctx) := by
  unfold metaWithContext
  rw [if_neg (by simp [List.isEmpty_iff, hne])]
  have hset : dictGet (dictSet meta "context" (.dict ctx)) "context" =
      some (.dict ctx) := by
    rw [dictGet_set]; simp
  rw [dictGet_foldl_setdefault_of_isSome _ _ _ (by rw [hset]; rfl), hset]

theorem dictGet_metaWithContext_of_mem (meta ctx : Dict) (k : String)
    (v : MetaValue) (hnod : (ctx.map Prod.fst).Nodup) (hmem : (k, v) ∈ ctx)
    (hk : k ≠ "context") (hnone : dictGet meta k = none) :
    dictGet (metaWithContext meta ctx) k = some v := by
  have hne : ctx ≠ [] := by rintro rfl; cases hmem
  unfold metaWithContext
  rw [if_neg (by simp [List.isEmpty_iff, hne])]
  refine dictGet_foldl_setdefault_of_mem _ _ _ _ hnod hmem ?_
  rw [dictGet_set]; simp [hk, hnone]

theorem dictGet_metaWithResponse_status (meta : Dict) (r : Response) :
    dictGet (metaWithResponse meta (some r)) "status" =
      some (.int r.status_code) := by
  unfold metaWithResponse
  cases hel : r.elapsed_s <;> simp [hel, dictGet_set]

theorem dictGet_metaWithResponse_status_code (meta : Dict) (r : Response) :
    dictGet (metaWithResponse meta (some r)) "status_code" =
      some (.int r.status_code) := by
  unfold metaWithResponse
  cases hel : r.elapsed_s <;> simp [hel, dictGet_set]

theorem dictGet_metaWithResponse_url (meta : Dict) (r : Response) :
    dictGet (metaWithResponse meta (some r)) "url" = some (.str r.url) := by
  unfold metaWithResponse
  cases hel : r.elapsed_s <;> simp [hel, dictGet_set]

theorem dictGet_metaWithResponse_reason (meta : Dict) (r : Response) :
    dictGet (metaWithResponse meta (some r)) "reason" =
      some (.str r.reason) := by
  unfold metaWithResponse
  cases hel : r.elapsed_s <;> simp [hel, dictGet_set]

theorem dictGet_metaWithResponse_elapsed (meta : Dict) (r : Response) (q : ℚ)
    (h : r.elapsed_s = some q) :
    dictGet (metaWithResponse meta (some r)) "elapsed_s" = some (.rat q) := by
  unfold metaWithResponse
  simp [h, dictGet_set]

theorem dictGet_metaWithResponse_of_ne (meta : Dict) (resp : Option Response)
    (k : String) (h1 : k ≠ "status") (h2 : k ≠ "status_code") (h3 : k ≠ "url")
    (h4 : k ≠ "reason") (h5 : k ≠ "elapsed_s") :
    dictGet (metaWithResponse meta resp) k = dictGet meta k := by
  cases resp with
  | none => rfl
  | some r =>
      unfold metaWithResponse
      cases hel : r.elapsed_s <;> simp [hel, dictGet_set, h1, h2, h3, h4, h5]

theorem dictGet_metaWithFinalError_self (meta : Dict) (fe : String) :
    dictGet (metaWithFinalError meta (some fe)) "final_error" =
      some (.str fe) := by
  simp [metaWithFinalError, dictGet_set]

theorem dictGet_metaWithFinalError_of_ne (meta : Dict) (f : Option String)
    (k : String) (h : k ≠ "final_error") :
    dictGet (metaWithFinalError meta f) k = dictGet meta k := by
  cases f <;> simp [metaWithFinalError, dictGet_set, h]

theorem dictGet_buildMeta_method (m u : String) (resp : Option Response)
    (ctx : Dict) (a : ℕ) (t : TimeoutValue) (fe : Option String) :
    dictGet (buildMeta m u resp ctx a t fe) "method" = some (.str m) := by
  unfold buildMeta
  rw [dictGet_metaWithFinalError_of_ne _ _ _ (by decide),
    dictGet_metaWithResponse_of_ne _ _ _ (by decide) (by decide) (by decide)
      (by decide) (by decide),
    dictGet_metaWithContext_of_isSome _ _ _ (by decide)
      (by rw [dictGet_metaBase_method]; rfl),
    dictGet_metaBase_method]

theorem dictGet_buildMeta_attempts (m u : String) (resp : Option Response)
    (ctx : Dict) (a : ℕ) (t : TimeoutValue) (fe : Option String) :
    dictGet (buildMeta m u resp ctx a t fe) "attempts" = some (.int a) := by
  unfold buildMeta
  rw [dictGet_metaWithFinalError_of_ne _ _ _ (by decide),
    dictGet_metaWithResponse_of_ne _ _ _ (by decide) (by decide) (by decide)
      (by decide) (by decide),
    dictGet_metaWithContext_of_isSome _ _ _ (by decide)
      (by rw [dictGet_metaBase_attempts]; rfl),
    dictGet_metaBase_attempts]

theorem dictGet_buildMeta_timeout (m u : String) (resp : Option Response)
    (ctx : Dict) (a : ℕ) (t : TimeoutValue) (fe : Option String) :
    dictGet (buildMeta m u resp ctx a t fe) "timeout_s" = some (.tval t) := by
  unfold buildMeta
  rw [dictGet_metaWithFinalError_of_ne _ _ _ (by decide),
    dictGet_metaWithResponse_of_ne _ _ _ (by decide) (by decide) (by decide)
      (by decide) (by decide),
    dictGet_metaWithContext_of_isSome _ _ _ (by decide)
      (by rw [dictGet_metaBase_timeout]; rfl),
    dictGet_metaBase_timeout]

theorem metaWithResponse_none (meta : Dict) :
    metaWithResponse meta none = meta := rfl

theorem dictGet_buildMeta_url_none (m u : String) (ctx : Dict) (a : ℕ)
    (t : TimeoutValue) (fe : Option String) :
    dictGet (buildMeta m u none ctx a t fe) "url" = some (.str u) := by
  unfold buildMeta
  rw [dictGet_metaWithFinalError_of_ne _ _ _ (by decide),
    metaWithResponse_none,
    dictGet_metaWithContext_of_isSome _ _ _ (by decide)
      (by rw [dictGet_metaBase_url]; rfl),
    dictGet_metaBase_url]

theorem dictGet_buildMeta_url_some (m u : String) (r : Response) (ctx : Dict)
    (a : ℕ) (t : TimeoutValue) (fe : Option String) :
    dictGet (buildMeta m u (some r) ctx a t fe) "url" = some (.str r.url) := by
  unfold buildMeta
  rw [dictGet_metaWithFinalError_of_ne _ _ _ (by decide),
    dictGet_metaWithResponse_url]

theorem dictGet_buildMeta_status (m u : String) (r : Response) (ctx : Dict)
    (a : ℕ) (t : TimeoutValue) (fe : Option String) :
    dictGet (buildMeta m u (some r) ctx a t fe) "status" =
      some (.int r.status_code) := by
  unfold buildMeta
  rw [dictGet_metaWithFinalError_of_ne _ _ _ (by decide),
    dictGet_metaWithResponse_status]

theorem dictGet_buildMeta_status_code (m u : String) (r : Response)
    (ctx : Dict) (a : ℕ) (t : TimeoutValue) (fe : Option String) :
    dictGet (buildMeta m u (some r) ctx a t fe) "status_code" =
      some (.int r.status_code) := by
  unfold buildMeta
  rw [dictGet_metaWithFinalError_of_ne _ _ _ (by decide),
    dictGet_metaWithResponse_status_code]

theorem dictGet_buildMeta_reason (m u : String) (r : Response) (ctx : Dict)
    (a : ℕ) (t : TimeoutValue) (fe : Option String) :
    dictGet (buildMeta m u (some r) ctx a t fe) "reason" =
      some (.str r.reason) := by
  unfold buildMeta
  rw [dictGet_metaWithFinalError_of_ne _ _ _ (by decide),
    dictGet_metaWithResponse_reason]

theorem dictGet_buildMeta_elapsed (m u : String) (r : Response) (ctx : Dict)
    (a : ℕ) (t : TimeoutValue) (fe : Option String) (q : ℚ)
    (h : r.elapsed_s = some q) :
    dictGet (buildMeta m u (some r) ctx a t fe) "elapsed_s" =
      some (.rat q) := by
  unfold buildMeta
  rw [dictGet_metaWithFinalError_of_ne _ _ _ (by decide),
    dictGet_metaWithResponse_elapsed _ _ _ h]

theorem dictGet_buildMeta_final_error (m u : String) (resp : Option Response)
    (ctx : Dict) (a : ℕ) (t : TimeoutValue) (fe : String) :
    dictGet (buildMeta m u resp ctx a t (some fe)) "final_error" =
      some (.str fe) := by
  unfold buildMeta
  rw [dictGet_metaWithFinalError_self]

theorem dictGet_buildMeta_context (m u : String) (resp : Option Response)
    (ctx : Dict) (a : ℕ) (t : TimeoutValue) (fe : Option String)
    (hne : ctx ≠ []) :
    dictGet (buildMeta m u resp ctx a t fe) "context" =
      some (.dict ctx) := by
  unfold buildMeta
  rw [dictGet_metaWithFinalError_of_ne _ _ _ (by decide),
    dictGet_metaWithResponse_of_ne _ _ _ (by decide) (by decide) (by decide)
      (by decide) (by decide),
    dictGet_metaWithContext_context _ _ hne]

theorem dictGet_buildMeta_of_mem (m u : String) (resp : Option Response)
    (ctx : Dict) (a : ℕ) (t : TimeoutValue) (fe : Option String)
    (k : String) (v : MetaValue) (hnod : (ctx.map Prod.fst).Nodup)
    (hmem : (k, v) ∈ ctx) (hk : k ∉ canonicalMetaKeys) :
    dictGet (buildMeta m u resp ctx a t fe) k = some v := by
  simp only [canonicalMetaKeys, List.mem_cons, List.mem_singleton,
    not_or, List.not_mem_nil] at hk
  obtain ⟨hk1, hk2, hk3, hk4, hk5, hk6, hk7, hk8, hk9, hk10, -⟩ := hk
  unfold buildMeta
  rw [dictGet_metaWithFinalError_of_ne _ _ _ hk10,
    dictGet_metaWithResponse_of_ne _ _ _ hk6 hk7 hk2 hk8 hk9,
    dictGet_metaWithContext_of_mem _ _ _ _ hnod hmem hk5
      (dictGet_metaBase_of_ne _ _ _ _ _ hk1 hk2 hk3 hk4)]

/-! Lemmas about the retry loop. -/

theorem maxAttempts_pos (c : HttpClientConfigData) : 1 ≤ c.maxAttempts := by
  simp [HttpClientConfigData.maxAttempts]

theorem requestGo_success_first {V : Type} (c : HttpClientConfigData)
    (method url : String) (ctx : Dict) (t : TimeoutValue)
    (transport : ℕ → TransportOutcome) (vb : Response → V)
    (fuel a : ℕ) (s : List ℚ) (r : Response)
    (h : transport (a + 1) = .success r) :
    requestGo c method url ctx t transport vb (fuel + 1) a s =
      { ok := true
        value := some (vb r)
        error := none
        meta := buildMeta method url (some r) ctx (a + 1) t none
        attemptsMade := a + 1
        sleeps := s } := by
  simp only [requestGo, h]

theorem requestGo_break_first {V : Type} (c : HttpClientConfigData)
    (method url : String) (ctx : Dict) (t : TimeoutValue)
    (transport : ℕ → TransportOutcome) (vb : Response → V)
    (fuel a : ℕ) (s : List ℚ) (e : RequestException)
    (h : transport (a + 1) = .reqExc e)
    (hstop : a + 1 ≥ c.maxAttempts ∨ ¬isRetryableException method e = true) :
    requestGo c method url ctx t transport vb (fuel + 1) a s =
      handleRequestException method url e ctx (a + 1) t s := by
  simp only [requestGo, h]
  rw [if_pos hstop]

theorem requestGo_other_first {V : Type} (c : HttpClientConfigData)
    (method url : String) (ctx : Dict) (t : TimeoutValue)
    (transport : ℕ → TransportOutcome) (vb : Response → V)
    (fuel a : ℕ) (s : List ℚ) (tn msg : String)
    (h : transport (a + 1) = .otherExc tn msg) :
    requestGo c method url ctx t transport vb (fuel + 1) a s =
      { ok := false
        value := none
        error := some (.httpClient msg)
        meta := buildMeta method url none ctx (a + 1) t (some tn)
        attemptsMade := a + 1
        sleeps := s } := by
  simp only [requestGo, h]

theorem requestGo_step {V : Type} (c : HttpClientConfigData)
    (method url : String) (ctx : Dict) (t : TimeoutValue)
    (transport : ℕ → TransportOutcome) (vb : Response → V)
    (fuel a : ℕ) (s : List ℚ) (e : RequestException)
    (h : transport (a + 1) = .reqExc e)
    (hlt : a + 1 < c.maxAttempts)
    (hretry : isRetryableException method e = true) :
    requestGo c method url ctx t transport vb (fuel + 1) a s =
      requestGo c method url ctx t transport vb fuel (a + 1)
        (match sleepDelay c (a + 1) with
         | some q => s ++ [q]
         | none => s) := by
  simp only [requestGo, h]
  rw [if_neg (by push_neg; exact ⟨by omega, by simp [hretry]⟩)]
  cases sleepDelay c (a + 1) <;> rfl

theorem requestGo_persist {V : Type} (c : HttpClientConfigData)
    (method url : String) (ctx : Dict) (t : TimeoutValue)
    (transport : ℕ → TransportOutcome) (vb : Response → V)
    (es : ℕ → RequestException)
    (hfail : ∀ k, transport k = .reqExc (es k))
    (hretry : ∀ k, isRetryableException method (es k) = true) :
    ∀ fuel a s, a + (fuel + 1) = c.maxAttempts →
      requestGo c method url ctx t transport vb (fuel + 1) a s =
        handleRequestException method url (es c.maxAttempts) ctx
          c.maxAttempts t
          (s ++ (List.range' (a + 1) fuel).filterMap (sleepDelay c)) := by
  intro fuel
  induction fuel with
  | zero =>
      intro a s hinv
      rw [requestGo_break_first c method url ctx t transport vb 0 a s
        (es (a + 1)) (hfail (a + 1)) (Or.inl (by omega))]
      rw [show a + 1 = c.maxAttempts by omega]
      simp
  | succ fuel ih =>
      intro a s hinv
      rw [requestGo_step c method url ctx t transport vb (fuel + 1) a s
        (es (a + 1)) (hfail (a + 1)) (by omega) (hretry (a + 1))]
      rw [ih (a + 1) _ (by omega)]
      congr 1
      rw [List.range'_succ]
      cases hd : sleepDelay c (a + 1) <;>
        simp [List.filterMap_cons, hd]

theorem requestRun_persist {V : Type} (c : HttpClientConfigData)
    (method url : String) (ctx : Dict) (t : TimeoutValue)
    (transport : ℕ → TransportOutcome) (vb : Response → V)
    (es : ℕ → RequestException)
    (hfail : ∀ k, transport k = .reqExc (es k))
    (hretry : ∀ k, isRetryableException method (es k) = true) :
    requestRun c method url ctx t transport vb =
      handleRequestException method url (es c.maxAttempts) ctx
        c.maxAttempts t
        ((List.range' 1 (c.maxAttempts - 1)).filterMap (sleepDelay c)) := by
  have h1 := maxAttempts_pos c
  unfold requestRun
  have h2 := requestGo_persist c method url ctx t transport vb es hfail hretry
    (c.maxAttempts - 1) 0 [] (by omega)
  rw [show c.maxAttempts - 1 + 1 = c.maxAttempts by omega] at h2
  simpa using h2

theorem requestGo_attempts_lower {V : Type} (c : HttpClientConfigData)
    (method url : String) (ctx : Dict) (t : TimeoutValue)
    (transport : ℕ → TransportOutcome) (vb : Response → V) :
    ∀ fuel a s,
      a ≤ (requestGo c method url ctx t transport vb fuel a s).attemptsMade ∧
      (1 ≤ fuel →
        a + 1 ≤ (requestGo c method url ctx t transport vb fuel a s).attemptsMade) := by
  intro fuel
  induction fuel with
  | zero => intro a s; exact ⟨le_rfl, by omega⟩
  | succ fuel ih =>
      intro a s
      cases htr : transport (a + 1) with
      | success r =>
          rw [requestGo_success_first c method url ctx t transport vb fuel a s
            r htr]
          exact ⟨by show a ≤ a + 1; omega, fun _ => by
            show a + 1 ≤ a + 1; omega⟩
      | reqExc e =>
          by_cases hstop :
              a + 1 ≥ c.maxAttempts ∨ ¬isRetryableException method e = true
          · rw [requestGo_break_first c method url ctx t transport vb fuel a s
              e htr hstop]
            exact ⟨by simp [handleRequestException], fun _ => by
              simp [handleRequestException]⟩
          · push_neg at hstop
            rw [requestGo_step c method url ctx t transport vb fuel a s e htr
              (by omega) (by simpa using hstop.2)]
            have h2 := (ih (a + 1)
              (match sleepDelay c (a + 1) with
               | some q => s ++ [q]
               | none => s)).1
            exact ⟨by omega, fun _ => h2⟩
      | otherExc tn msg =>
          rw [requestGo_other_first c method url ctx t transport vb fuel a s
            tn msg htr]
          exact ⟨by show a ≤ a + 1; omega, fun _ => by
            show a + 1 ≤ a + 1; omega⟩

theorem requestGo_sleeps_zero {V : Type} (c : HttpClientConfigData)
    (method url : String) (ctx : Dict) (t : TimeoutValue)
    (transport : ℕ → TransportOutcome) (vb : Response → V)
    (hbase : c.backoff_base_seconds ≤ 0) :
    ∀ fuel a s,
      (requestGo c method url ctx t transport vb fuel a s).sleeps = s := by
  intro fuel
  induction fuel with
  | zero => intro a s; rfl
  | succ fuel ih =>
      intro a s
      cases htr : transport (a + 1) with
      | success r =>
          rw [requestGo_success_first c method url ctx t transport vb fuel a s
            r htr]
      | reqExc e =>
          by_cases hstop :
              a + 1 ≥ c.maxAttempts ∨ ¬isRetryableException method e = true
          · rw [requestGo_break_first c method url ctx t transport vb fuel a s
              e htr hstop]
            rfl
          · push_neg at hstop
            rw [requestGo_step c method url ctx t transport vb fuel a s e htr
              (by omega) (by simpa using hstop.2)]
            have hd : sleepDelay c (a + 1) = none := by
              simp [sleepDelay, hbase]
            rw [hd]
            exact ih (a + 1) s
      | otherExc tn msg =>
          rw [requestGo_other_first c method url ctx t transport vb fuel a s
            tn msg htr]

theorem requestGo_sleeps_pos {V : Type} (c : HttpClientConfigData)
    (method url : String) (ctx : Dict) (t : TimeoutValue)
    (transport : ℕ → TransportOutcome) (vb : Response → V)
    (hbase : 0 < c.backoff_base_seconds) :
    ∀ fuel a s, 1 ≤ fuel → a + fuel = c.maxAttempts →
      (requestGo c method url ctx t transport vb fuel a s).sleeps =
        s ++ (List.range' (a + 1)
          ((requestGo c method url ctx t transport vb fuel a s).attemptsMade
            - (a + 1))).map
          (fun j => c.backoff_base_seconds * 2 ^ (j - 1)) := by
  intro fuel
  induction fuel with
  | zero => intro a s h; omega
  | succ fuel ih =>
      intro a s hf hinv
      cases htr : transport (a + 1) with
      | success r =>
          rw [requestGo_success_first c method url ctx t transport vb fuel a s
            r htr]
          simp
      | reqExc e =>
          by_cases hstop :
              a + 1 ≥ c.maxAttempts ∨ ¬isRetryableException method e = true
          · rw [requestGo_break_first c method url ctx t transport vb fuel a s
              e htr hstop]
            simp [handleRequestException]
          · push_neg at hstop
            have hfuel : 1 ≤ fuel := by omega
            rw [requestGo_step c method url ctx t transport vb fuel a s e htr
              (by omega) (by simpa using hstop.2)]
            have hd : sleepDelay c (a + 1) =
                some (c.backoff_base_seconds * 2 ^ a) := by
              simp [sleepDelay, not_le.mpr hbase]
            rw [hd]
            rw [ih (a + 1) (s ++ [c.backoff_base_seconds * 2 ^ a]) hfuel
              (by omega)]
            have hA := ((requestGo_attempts_lower c method url ctx t transport
              vb) fuel (a + 1)
              (s ++ [c.backoff_base_seconds * 2 ^ a])).2 hfuel
            set A := (requestGo c method url ctx t transport vb fuel (a + 1)
              (s ++ [c.backoff_base_seconds * 2 ^ a])).attemptsMade with hAdef
            rw [show A - (a + 1) = (A - (a + 2)) + 1 by omega,
              List.range'_succ]
            simp [List.append_assoc]
      | otherExc tn msg =>
          rw [requestGo_other_first c method url ctx t transport vb fuel a s
            tn msg htr]
          simp

theorem requestGo_error_classified {V : Type} (c : HttpClientConfigData)
    (method url : String) (ctx : Dict) (t : TimeoutValue)
    (transport : ℕ → TransportOutcome) (vb : Response → V) :
    ∀ fuel a s err,
      (requestGo c method url ctx t transport vb fuel a s).error = some err →
      (∃ e, transport
          (requestGo c method url ctx t transport vb fuel a s).attemptsMade
            = .reqExc e ∧ err = classifyError e) ∨
      (∃ tn msg, transport
          (requestGo c method url ctx t transport vb fuel a s).attemptsMade
            = .otherExc tn msg ∧ err = .httpClient msg) := by
  intro fuel
  induction fuel with
  | zero => intro a s err h; exact absurd h (by simp [requestGo])
  | succ fuel ih =>
      intro a s err h
      cases htr : transport (a + 1) with
      | success r =>
          rw [requestGo_success_first c method url ctx t transport vb fuel a s
            r htr] at h
          simp at h
      | reqExc e =>
          by_cases hstop :
              a + 1 ≥ c.maxAttempts ∨ ¬isRetryableException method e = true
          · rw [requestGo_break_first c method url ctx t transport vb fuel a s
              e htr hstop] at h ⊢
            simp [handleRequestException] at h
            exact Or.inl ⟨e, htr, h.symm⟩
          · push_neg at hstop
            rw [requestGo_step c method url ctx t transport vb fuel a s e htr
              (by omega) (by simpa using hstop.2)] at h ⊢
            exact ih (a + 1) _ err h
      | otherExc tn msg =>
          rw [requestGo_other_first c method url ctx t transport vb fuel a s
            tn msg htr] at h ⊢
          simp at h
          exact Or.inr ⟨tn, msg, htr, h.symm⟩

theorem requestGo_error_finalMeta {V : Type} (c : HttpClientConfigData)
    (method url : String) (ctx : Dict) (t : TimeoutValue)
    (transport : ℕ → TransportOutcome) (vb : Response → V) :
    ∀ fuel a s err,
      (requestGo c method url ctx t transport vb fuel a s).error = some err →
      (∃ e, transport
          (requestGo c method url ctx t transport vb fuel a s).attemptsMade
            = .reqExc e ∧
        dictGet (requestGo c method url ctx t transport vb fuel a s).meta
          "final_error" = some (.str e.typeName)) ∨
      (∃ tn msg, transport
          (requestGo c method url ctx t transport vb fuel a s).attemptsMade
            = .otherExc tn msg ∧
        dictGet (requestGo c method url ctx t transport vb fuel a s).meta
          "final_error" = some (.str tn)) := by
  intro fuel
  induction fuel with
  | zero => intro a s err h; exact absurd h (by simp [requestGo])
  | succ fuel ih =>
      intro a s err h
      cases htr : transport (a + 1) with
      | success r =>
          rw [requestGo_success_first c method url ctx t transport vb fuel a s
            r htr] at h
          simp at h
      | reqExc e =>
          by_cases hstop :
              a + 1 ≥ c.maxAttempts ∨ ¬isRetryableException method e = true
          · rw [requestGo_break_first c method url ctx t transport vb fuel a s
              e htr hstop]
            exact Or.inl ⟨e, htr,
              dictGet_buildMeta_final_error method url e.response ctx (a + 1)
                t e.typeName⟩
          · push_neg at hstop
            rw [requestGo_step c method url ctx t transport vb fuel a s e htr
              (by omega) (by simpa using hstop.2)] at h ⊢
            exact ih (a + 1) _ err h
      | otherExc tn msg =>
          rw [requestGo_other_first c method url ctx t transport vb fuel a s
            tn msg htr]
          exact Or.inr ⟨tn, msg, htr,
            dictGet_buildMeta_final_error method url none ctx (a + 1) t tn⟩

theorem requestGo_meta_canonical {V : Type} (c : HttpClientConfigData)
    (method url : String) (ctx : Dict) (t : TimeoutValue)
    (transport : ℕ → TransportOutcome) (vb : Response → V) :
    ∀ fuel a s, 1 ≤ fuel → a + fuel = c.maxAttempts →
      dictGet (requestGo c method url ctx t transport vb fuel a s).meta
          "method" = some (.str method) ∧
      dictGet (requestGo c method url ctx t transport vb fuel a s).meta
          "attempts" = some (.int
            (requestGo c method url ctx t transport vb fuel a s).attemptsMade) ∧
      dictGet (requestGo c method url ctx t transport vb fuel a s).meta
          "timeout_s" = some (.tval t) ∧
      ∃ uu, dictGet (requestGo c method url ctx t transport vb fuel a s).meta
          "url" = some (.str uu) := by
  intro fuel
  induction fuel with
  | zero => intro a s h; omega
  | succ fuel ih =>
      intro a s hf hinv
      cases htr : transport (a + 1) with
      | success r =>
          rw [requestGo_success_first c method url ctx t transport vb fuel a s
            r htr]
          exact ⟨dictGet_buildMeta_method method url (some r) ctx (a + 1) t
              none,
            dictGet_buildMeta_attempts method url (some r) ctx (a + 1) t none,
            dictGet_buildMeta_timeout method url (some r) ctx (a + 1) t none,
            r.url,
            dictGet_buildMeta_url_some method url r ctx (a + 1) t none⟩
      | reqExc e =>
          by_cases hstop :
              a + 1 ≥ c.maxAttempts ∨ ¬isRetryableException method e = true
          · rw [requestGo_break_first c method url ctx t transport vb fuel a s
              e htr hstop]
            refine ⟨dictGet_buildMeta_method method url e.response ctx (a + 1)
                t (some e.typeName),
              dictGet_buildMeta_attempts method url e.response ctx (a + 1) t
                (some e.typeName),
              dictGet_buildMeta_timeout method url e.response ctx (a + 1) t
                (some e.typeName), ?_⟩
            cases hresp : e.response with
            | none =>
                exact ⟨url, by
                  simp only [handleRequestException, hresp]
                  exact dictGet_buildMeta_url_none _ _ _ _ _ _⟩
            | some r =>
                exact ⟨r.url, by
                  simp only [handleRequestException, hresp]
                  exact dictGet_buildMeta_url_some _ _ _ _ _ _ _⟩
          · push_neg at hstop
            rw [requestGo_step c method url ctx t transport vb fuel a s e htr
              (by omega) (by simpa using hstop.2)]
            exact ih (a + 1) _ (by omega) (by omega)
      | otherExc tn msg =>
          rw [requestGo_other_first c method url ctx t transport vb fuel a s
            tn msg htr]
          exact ⟨dictGet_buildMeta_method method url none ctx (a + 1) t
              (some tn),
            dictGet_buildMeta_attempts method url none ctx (a + 1) t (some tn),
            dictGet_buildMeta_timeout method url none ctx (a + 1) t (some tn),
            url, dictGet_buildMeta_url_none method url ctx (a + 1) t
              (some tn)⟩

theorem requestGo_success_at {V : Type} (c : HttpClientConfigData)
    (method url : String) (ctx : Dict) (t : TimeoutValue)
    (transport : ℕ → TransportOutcome) (vb : Response → V)
    (K : ℕ) (r : Response) (hsucc : transport K = .success r)
    (hfails : ∀ j, 0 < j → j < K →
      ∃ e, transport j = .reqExc e ∧ isRetryableException method e = true) :
    ∀ fuel a s, a < K → K ≤ a + fuel → a + fuel = c.maxAttempts →
      (requestGo c method url ctx t transport vb fuel a s).ok = true ∧
      (requestGo c method url ctx t transport vb fuel a s).value =
        some (vb r) ∧
      (requestGo c method url ctx t transport vb fuel a s).meta =
        buildMeta method url (some r) ctx K t none ∧
      (requestGo c method url ctx t transport vb fuel a s).attemptsMade =
        K := by
  intro fuel
  induction fuel with
  | zero => intro a s h1 h2 h3; omega
  | succ fuel ih =>
      intro a s h1 h2 hinv
      by_cases hK : K = a + 1
      · subst hK
        rw [requestGo_success_first c method url ctx t transport vb fuel a s
          r hsucc]
        exact ⟨rfl, rfl, rfl, rfl⟩
      · obtain ⟨e, hte, hre⟩ := hfails (a + 1) (by omega) (by omega)
        rw [requestGo_step c method url ctx t transport vb fuel a s e hte
          (by omega) hre]
        exact ih (a + 1) _ (by omega) (by omega) (by omega)

end HttpClient

/-! Lemmas about the header-mapping store. -/

namespace HeaderHeap

theorem freezeCopy_ref (h : HeaderHeap) (rc : ℕ) :
    (h.freezeCopy rc).2 = h.cells.length := rfl

theorem read_freezeCopy_new (h : HeaderHeap) (rc : ℕ) :
    (h.freezeCopy rc).1.read (h.freezeCopy rc).2 = h.read rc := by
  simp [freezeCopy, alloc, read, List.getElem?_concat_length]

theorem isFrozen_freezeCopy_new (h : HeaderHeap) (rc : ℕ) :
    (h.freezeCopy rc).1.isFrozen (h.freezeCopy rc).2 = true := by
  simp [freezeCopy, alloc, isFrozen, List.getElem?_concat_length]

theorem read_freezeCopy_old (h : HeaderHeap) (rc r : ℕ)
    (hr : r < h.cells.length) :
    (h.freezeCopy rc).1.read r = h.read r := by
  simp [freezeCopy, alloc, read, List.getElem?_append_left hr]

theorem isFrozen_freezeCopy_old (h : HeaderHeap) (rc r : ℕ)
    (hr : r < h.cells.length) :
    (h.freezeCopy rc).1.isFrozen r = h.isFrozen r := by
  simp [freezeCopy, alloc, isFrozen, List.getElem?_append_left hr]

theorem read_setItem_other (h h2 : HeaderHeap) (r r2 : ℕ) (k v : String)
    (hne : r ≠ r2) (hset : h.setItem r k v = .ok h2) :
    h2.read r2 = h.read r2 := by
  unfold setItem at hset
  by_cases hf : h.isFrozen r = true
  · simp [hf] at hset
  · simp only [hf, Bool.false_eq_true, if_false, Except.ok.injEq] at hset
    subst hset
    simp [read, List.getElem?_set_ne hne]

end HeaderHeap

namespace HttpClient

theorem requestRun_break_first {V : Type} (c : HttpClientConfigData)
    (method url : String) (ctx : Dict) (t : TimeoutValue)
    (transport : ℕ → TransportOutcome) (vb : Response → V)
    (e : RequestException) (htr : transport 1 = .reqExc e)
    (hstop : 1 ≥ c.maxAttempts ∨ ¬isRetryableException method e = true) :
    requestRun c method url ctx t transport vb =
      handleRequestException method url e ctx 1 t [] := by
  unfold requestRun
  have h1 := maxAttempts_pos c
  rw [show c.maxAttempts = (c.maxAttempts - 1) + 1 by omega]
  exact requestGo_break_first c method url ctx t transport vb _ 0 [] e htr
    (by simpa using hstop)

theorem maxAttempts_of_retries (c : HttpClientConfigData) (r : ℕ)
    (hr : c.retries = (r : ℤ)) : c.maxAttempts = r + 1 := by
  simp [HttpClientConfigData.maxAttempts, hr]
  omega

theorem isRetryable_of_idempotent (method : String) (e : RequestException)
    (hm : method = "GET" ∨ method = "HEAD")
    (he : (e.isTimeout || e.isConnError) = true) :
    isRetryableException method e = true := by
  rcases hm with hm | hm <;> subst hm <;>
    simp [isRetryableException, he, show strUpper "GET" = "GET" by decide,
      show strUpper "HEAD" = "HEAD" by decide]

theorem isRetryable_post_false (e : RequestException) :
    isRetryableException "POST" e = false := by
  simp [isRetryableException, show strUpper "POST" = "POST" by decide]

theorem isRetryable_nonretryable_false (method : String)
    (e : RequestException) (hT : e.isTimeout = false)
    (hC : e.isConnError = false) :
    isRetryableException method e = false := by
  simp [isRetryableException, hT, hC]

end HttpClient

/-! Claim theorems. -/

/-- C3: Timeout resolution — a positive override resolves to that scalar;
a non-positive override is rejected with a `ValueError` before any
transport call (`get` fails identically for every transport); with no
override a fully configured connect/read pair resolves to that pair;
otherwise the scalar `timeout_seconds` is used, absent meaning no
timeout. -/
theorem c3_timeout_resolution (c : HttpClientConfigData) :
    (∀ o : ℚ, 0 < o →
      c.getTimeout (some o) = .ok (.scalar o)) ∧
    (∀ o : ℚ, o ≤ 0 →
      c.getTimeout (some o) =
        .error "timeout override must be > 0 when provided" ∧
      ∀ url ctx transport,
        HttpClient.get c url (some o) ctx transport =
          .error "timeout override must be > 0 when provided") ∧
    (∀ ct rt : ℚ, c.connect_timeout_seconds = some ct →
      c.read_timeout_seconds = some rt →
      c.getTimeout none = .ok (.pair ct rt)) ∧
    ((c.connect_timeout_seconds = none ∨ c.read_timeout_seconds = none) →
      c.getTimeout none = .ok
        (match c.timeout_seconds with
         | some t => .scalar t
         | none => .noTimeout)) := by
  refine ⟨?_, ?_, ?_, ?_⟩
  · intro o ho
    simp [HttpClientConfigData.getTimeout, not_le.mpr ho]
  · intro o ho
    have hres : c.getTimeout (some o) =
        .error "timeout override must be > 0 when provided" := by
      simp [HttpClientConfigData.getTimeout, ho]
    refine ⟨hres, ?_⟩
    intro url ctx transport
    simp [HttpClient.get, hres]
  · intro ct rt hc hr
    simp [HttpClientConfigData.getTimeout, hc, hr]
  · intro hone
    cases hc : c.connect_timeout_seconds with
    | some ct =>
        cases hr : c.read_timeout_seconds with
        | some rt =>
            rcases hone with hone | hone
            · exact absurd hc (by rw [hone]; exact fun h => by cases h)
            · exact absurd hr (by rw [hone]; exact fun h => by cases h)
        | none =>
            cases ht : c.timeout_seconds <;>
              simp [HttpClientConfigData.getTimeout, hc, hr, ht]
    | none =>
        cases ht : c.timeout_seconds <;>
          simp [HttpClientConfigData.getTimeout, hc, ht]

/-- Witness for C3 at concrete configurations: a connect/read pair wins
with no override, a positive override wins over scalar configuration,
and a zero override is rejected without consulting the transport. -/
theorem c3_witness :
    HttpClientConfigData.getTimeout
      { connect_timeout_seconds := some 2, read_timeout_seconds := some 7 }
      none = .ok (.pair 2 7) ∧
    HttpClientConfigData.getTimeout { timeout_seconds := some 5 } (some 3) =
      .ok (.scalar 3) ∧
    HttpClient.get { timeout_seconds := some 5 } "http://e.com" (some 0) []
      (fun _ => .otherExc "RuntimeError" "m") =
      .error "timeout override must be > 0 when provided" := by
  refine ⟨?_, ?_, ?_⟩
  · exact (c3_timeout_resolution _).2.2.1 2 7 rfl rfl
  · exact (c3_timeout_resolution _).1 3 (by norm_num)
  · exact ((c3_timeout_resolution _).2.1 0 (by norm_num)).2 "http://e.com" [] _

/-- C8: Configuration validation — construction succeeds exactly when
retries and backoff base are non-negative, connect/read timeouts are set
together, and every provided timeout value is positive; otherwise a
`ValueError` is raised during `__post_init__` and no instance is
produced. -/
theorem c8_config_validation (c : HttpClientConfigData) :
    HttpClientConfigData.postInit c = .ok c ↔
      (0 ≤ c.retries ∧ 0 ≤ c.backoff_base_seconds ∧
       c.connect_timeout_seconds.isSome = c.read_timeout_seconds.isSome ∧
       (∀ t, c.timeout_seconds = some t → 0 < t) ∧
       (∀ t, c.connect_timeout_seconds = some t → 0 < t) ∧
       (∀ t, c.read_timeout_seconds = some t → 0 < t)) := by
  unfold HttpClientConfigData.postInit
  split_ifs with h1 h2 h3 h4 h5 h6
  · constructor
    · intro h; exact absurd h (by simp)
    · rintro ⟨hr, -⟩; omega
  · constructor
    · intro h; exact absurd h (by simp)
    · rintro ⟨-, hb, -⟩; exact absurd hb (not_le.mpr h2)
  · constructor
    · intro h; exact absurd h (by simp)
    · rintro ⟨-, -, hs, -⟩; exact h3 hs
  · constructor
    · intro h; exact absurd h (by simp)
    · rintro ⟨-, -, -, ht, -⟩
      cases hts : c.timeout_seconds with
      | none => rw [hts] at h4; exact absurd h4 (by simp)
      | some tt =>
          rw [hts] at h4
          have := ht tt hts
          simp at h4
          linarith
  · constructor
    · intro h; exact absurd h (by simp)
    · rintro ⟨-, -, -, -, ht, -⟩
      cases hts : c.connect_timeout_seconds with
      | none => rw [hts] at h5; exact absurd h5 (by simp)
      | some tt =>
          rw [hts] at h5
          have := ht tt hts
          simp at h5
          linarith
  · constructor
    · intro h; exact absurd h (by simp)
    · rintro ⟨-, -, -, -, -, ht⟩
      cases hts : c.read_timeout_seconds with
      | none => rw [hts] at h6; exact absurd h6 (by simp)
      | some tt =>
          rw [hts] at h6
          have := ht tt hts
          simp at h6
          linarith
  · constructor
    · intro _
      refine ⟨by omega, not_lt.mp h2, not_ne_iff.mp h3, ?_, ?_, ?_⟩
      · intro t ht
        by_contra hle
        rw [ht] at h4
        exact h4 (by simp [not_lt.mp hle])
      · intro t ht
        by_contra hle
        rw [ht] at h5
        exact h5 (by simp [not_lt.mp hle])
      · intro t ht
        by_contra hle
        rw [ht] at h6
        exact h6 (by simp [not_lt.mp hle])
    · intro _; rfl

/-- Witness for C8: a fully valid configuration constructs and returns
itself, instantiating the right-to-left direction at concrete values. -/
theorem c8_witness :
    HttpClientConfigData.postInit
      { retries := 2, backoff_base_seconds := 1,
        connect_timeout_seconds := some 2, read_timeout_seconds := some 7,
        timeout_seconds := some 5 } =
      Except.ok
        ({ retries := 2, backoff_base_seconds := 1,
           connect_timeout_seconds := some 2, read_timeout_seconds := some 7,
           timeout_seconds := some 5 } : HttpClientConfigData) := by
  refine (c8_config_validation _).mpr
    ⟨by norm_num, by norm_num, rfl, ?_, ?_, ?_⟩ <;>
    · intro t ht
      cases ht
      norm_num

/-- C9: Header independence and immutability — the stored headers
mapping is a freshly allocated frozen copy of the caller's mapping:
mutating the caller's object afterwards leaves the stored copy
unchanged, item assignment on the stored copy raises `TypeError`, and a
second construction never returns the same object reference. -/
theorem c9_header_independence (h : HeaderHeap) (rc : ℕ)
    (hr : rc < h.cells.length) :
    ((h.freezeCopy rc).1.read (h.freezeCopy rc).2 = h.read rc) ∧
    (∀ k v h2, (h.freezeCopy rc).1.setItem rc k v = .ok h2 →
      h2.read (h.freezeCopy rc).2 = h.read rc) ∧
    (∀ k v, ∃ msg, (h.freezeCopy rc).1.setItem (h.freezeCopy rc).2 k v =
      .error msg) ∧
    (∀ rc2, ((h.freezeCopy rc).1.freezeCopy rc2).2 ≠ (h.freezeCopy rc).2) := by
  refine ⟨HeaderHeap.read_freezeCopy_new h rc, ?_, ?_, ?_⟩
  · intro k v h2 hset
    have hne : rc ≠ (h.freezeCopy rc).2 := by
      rw [HeaderHeap.freezeCopy_ref]; omega
    rw [HeaderHeap.read_setItem_other _ _ _ _ _ _ hne hset,
      HeaderHeap.read_freezeCopy_new]
  · intro k v
    refine ⟨"TypeError: mappingproxy object does not support item assignment",
      ?_⟩
    unfold HeaderHeap.setItem
    rw [if_pos (HeaderHeap.isFrozen_freezeCopy_new h rc)]
  · intro rc2
    rw [HeaderHeap.freezeCopy_ref, HeaderHeap.freezeCopy_ref]
    simp [HeaderHeap.freezeCopy, HeaderHeap.alloc]

/-- Witness for C9 on a one-cell heap holding the caller's mutable
mapping. -/
theorem c9_witness :
    (((HeaderHeap.mk [([("X-Test", "yes")], false)]).freezeCopy 0).1.read
      ((HeaderHeap.mk [([("X-Test", "yes")], false)]).freezeCopy 0).2 =
      [("X-Test", "yes")]) ∧
    (∀ rc2,
      ((((HeaderHeap.mk [([("X-Test", "yes")], false)]).freezeCopy 0).1
        ).freezeCopy rc2).2 ≠
      ((HeaderHeap.mk [([("X-Test", "yes")], false)]).freezeCopy 0).2) := by
  constructor
  · exact (c9_header_independence (HeaderHeap.mk [([("X-Test", "yes")], false)])
      0 (by simp)).1
  · exact (c9_header_independence (HeaderHeap.mk [([("X-Test", "yes")], false)])
      0 (by simp)).2.2.2

/-- C1: Attempt-count law — with `retries = r`, a persistently failing
GET or HEAD call whose every failure is a retryable condition (an
instance of `Timeout` or `ConnectionError`) makes exactly `r + 1`
transport attempts and reports `attempts == r + 1` in the failure
metadata; a persistently failing POST, or any method whose first failure
is not a retryable condition, makes exactly 1 attempt regardless of
`r`. -/
theorem c1_attempt_count_law (c : HttpClientConfigData) (r : ℕ)
    (hr : c.retries = (r : ℤ)) (url : String) (ctx : Dict)
    (t : TimeoutValue) :
    (∀ (V : Type) (vb : Response → V) (method : String),
      (method = "GET" ∨ method = "HEAD") →
      ∀ (transport : ℕ → TransportOutcome) (es : ℕ → RequestException),
        (∀ k, transport k = .reqExc (es k)) →
        (∀ k, ((es k).isTimeout || (es k).isConnError) = true) →
        (HttpClient.requestRun c method url ctx t transport vb).attemptsMade
            = r + 1 ∧
        dictGet
          (HttpClient.requestRun c method url ctx t transport vb).meta
          "attempts" = some (.int ((r : ℤ) + 1)) ∧
        (HttpClient.requestRun c method url ctx t transport vb).ok
            = false) ∧
    (∀ (V : Type) (vb : Response → V) (transport : ℕ → TransportOutcome)
        (e : RequestException), transport 1 = .reqExc e →
      (HttpClient.requestRun c "POST" url ctx t transport vb).attemptsMade
        = 1) ∧
    (∀ (V : Type) (vb : Response → V) (method : String)
        (transport : ℕ → TransportOutcome) (e : RequestException),
      transport 1 = .reqExc e → e.isTimeout = false →
      e.isConnError = false →
      (HttpClient.requestRun c method url ctx t transport vb).attemptsMade
        = 1) := by
  have hmax := HttpClient.maxAttempts_of_retries c r hr
  refine ⟨?_, ?_, ?_⟩
  · intro V vb method hm transport es hfail hretry
    rw [HttpClient.requestRun_persist c method url ctx t transport vb es
      hfail
      (fun k => HttpClient.isRetryable_of_idempotent method (es k) hm
        (hretry k))]
    rw [hmax]
    refine ⟨rfl, ?_, rfl⟩
    have := HttpClient.dictGet_buildMeta_attempts method url
      (es (r + 1)).response ctx (r + 1) t (some (es (r + 1)).typeName)
    simpa using this
  · intro V vb transport e htr
    rw [HttpClient.requestRun_break_first c "POST" url ctx t transport vb e
      htr (Or.inr (by simp [HttpClient.isRetryable_post_false]))]
    rfl
  · intro V vb method transport e htr hT hC
    rw [HttpClient.requestRun_break_first c method url ctx t transport vb e
      htr (Or.inr
        (by simp [HttpClient.isRetryable_nonretryable_false method e hT hC]))]
    rfl

/-- Witness for C1: with `retries = 2`, a GET failing with a timeout on
every attempt makes 3 attempts and reports them, while a POST under the
same failure makes 1. -/
theorem c1_witness :
    (HttpClient.requestRun { retries := 2 } "GET" "http://e.com" []
      (.scalar 5)
      (fun _ => .reqExc
        { isTimeout := true, isConnError := false, typeName := "Timeout",
          msg := "boom", response := none })
      HttpClient.contentValue).attemptsMade = 3 ∧
    dictGet (HttpClient.requestRun { retries := 2 } "GET" "http://e.com" []
      (.scalar 5)
      (fun _ => .reqExc
        { isTimeout := true, isConnError := false, typeName := "Timeout",
          msg := "boom", response := none })
      HttpClient.contentValue).meta "attempts" = some (.int 3) ∧
    (HttpClient.requestRun { retries := 2 } "POST" "http://e.com" []
      (.scalar 5)
      (fun _ => .reqExc
        { isTimeout := true, isConnError := false, typeName := "Timeout",
          msg := "boom", response := none })
      HttpClient.contentValue).attemptsMade = 1 := by
  have h := c1_attempt_count_law { retries := 2 } 2 rfl "http://e.com" []
    (.scalar 5)
  refine ⟨?_, ?_, ?_⟩
  · exact (h.1 String HttpClient.contentValue "GET" (Or.inl rfl) _
      (fun _ =>
        { isTimeout := true, isConnError := false, typeName := "Timeout",
          msg := "boom", response := none })
      (fun k => rfl) (fun k => rfl)).1
  · have h2 := (h.1 String HttpClient.contentValue "GET" (Or.inl rfl) _
      (fun _ =>
        { isTimeout := true, isConnError := false, typeName := "Timeout",
          msg := "boom", response := none })
      (fun k => rfl) (fun k => rfl)).2.1
    simpa using h2
  · exact h.2.1 String HttpClient.contentValue _
      { isTimeout := true, isConnError := false, typeName := "Timeout",
        msg := "boom", response := none } rfl

/-- C4: Backoff policy — for every call (any method, any transport
behaviour), with a positive backoff base the list of delays slept is
exactly `base * 2 ^ n` for `n = 0, 1, ...` over the gaps between
consecutive attempts (so the delay before attempt `k ≥ 2` is
`base * 2 ^ (k - 2)`); with base 0 no delay is ever slept; and the
number of delays is strictly fewer than the attempts made (no delay
after the final attempt). -/
theorem c4_backoff_policy (c : HttpClientConfigData) (method url : String)
    (ctx : Dict) (t : TimeoutValue) (transport : ℕ → TransportOutcome)
    (V : Type) (vb : Response → V) :
    (0 < c.backoff_base_seconds →
      (HttpClient.requestRun c method url ctx t transport vb).sleeps =
        (List.range
          ((HttpClient.requestRun c method url ctx t transport vb
            ).attemptsMade - 1)).map
          (fun n => c.backoff_base_seconds * 2 ^ n)) ∧
    (c.backoff_base_seconds = 0 →
      (HttpClient.requestRun c method url ctx t transport vb).sleeps = []) ∧
    (HttpClient.requestRun c method url ctx t transport vb).sleeps.length ≤
      (HttpClient.requestRun c method url ctx t transport vb).attemptsMade
        - 1 := by
  have hpos : ∀ hbase : 0 < c.backoff_base_seconds,
      (HttpClient.requestRun c method url ctx t transport vb).sleeps =
        (List.range
          ((HttpClient.requestRun c method url ctx t transport vb
            ).attemptsMade - 1)).map
          (fun n => c.backoff_base_seconds * 2 ^ n) := by
    intro hbase
    have h := HttpClient.requestGo_sleeps_pos c method url ctx t transport vb
      hbase c.maxAttempts 0 [] (HttpClient.maxAttempts_pos c)
      (Nat.zero_add _)
    rw [List.range'_eq_map_range, List.map_map] at h
    unfold HttpClient.requestRun
    rw [h]
    have hexp : ∀ m : ℕ, 1 + m - 1 = m := fun m => by omega
    simp [Function.comp, hexp]
  refine ⟨hpos, ?_, ?_⟩
  · intro hz
    unfold HttpClient.requestRun
    exact HttpClient.requestGo_sleeps_zero c method url ctx t transport vb
      (le_of_eq hz) c.maxAttempts 0 []
  · by_cases hbase : 0 < c.backoff_base_seconds
    · rw [hpos hbase]
      simp
    · unfold HttpClient.requestRun
      rw [HttpClient.requestGo_sleeps_zero c method url ctx t transport vb
        (not_lt.mp hbase) c.maxAttempts 0 []]
      simp

/-- Witness for C4: with `retries = 2` and base 3, the persistently
failing GET sleeps `[3, 6]` — the delay before attempt 2 is
`3 * 2 ^ 0` and before attempt 3 is `3 * 2 ^ 1` — and with base 0 it
sleeps nothing. -/
theorem c4_witness :
    (HttpClient.requestRun { retries := 2, backoff_base_seconds := 3 } "GET"
      "http://e.com" [] (.scalar 5)
      (fun _ => .reqExc
        { isTimeout := true, isConnError := false, typeName := "Timeout",
          msg := "boom", response := none })
      HttpClient.contentValue).sleeps = [3, 6] ∧
    (HttpClient.requestRun { retries := 2 } "GET" "http://e.com" []
      (.scalar 5)
      (fun _ => .reqExc
        { isTimeout := true, isConnError := false, typeName := "Timeout",
          msg := "boom", response := none })
      HttpClient.contentValue).sleeps = [] := by
  constructor
  · have h := (c4_backoff_policy { retries := 2, backoff_base_seconds := 3 }
      "GET" "http://e.com" [] (.scalar 5)
      (fun _ => .reqExc
        { isTimeout := true, isConnError := false, typeName := "Timeout",
          msg := "boom", response := none })
      String HttpClient.contentValue).1 (by norm_num)
    rw [h]
    rw [show (HttpClient.requestRun
        { retries := 2, backoff_base_seconds := 3 } "GET" "http://e.com" []
        (.scalar 5)
        (fun _ => .reqExc
          { isTimeout := true, isConnError := false, typeName := "Timeout",
            msg := "boom", response := none })
        HttpClient.contentValue).attemptsMade = 3 from by
      simp [HttpClient.requestRun, HttpClient.requestGo,
        HttpClientConfigData.maxAttempts, HttpClient.isRetryableException,
        HttpClient.sleepDelay, strUpper, HttpClient.handleRequestException]
      norm_num]
    simp [List.range_succ]
    norm_num
  · exact (c4_backoff_policy { retries := 2 } "GET" "http://e.com" []
      (.scalar 5)
      (fun _ => .reqExc
        { isTimeout := true, isConnError := false, typeName := "Timeout",
          msg := "boom", response := none })
      String HttpClient.contentValue).2.1 rfl

/-- C10: The download operation executes with method "GET" — every
successful call of `download` reports `method == "GET"` in its result
metadata — and download is subject to the same retry eligibility as
`get`: under persistently failing retryable transport conditions it
makes `retries + 1` attempts, the same count as `get` under the same
transport. -/
theorem c10_download_is_get (c : HttpClientConfigData) (url : String)
    (tov : Option ℚ) (ctx : Dict) (transport : ℕ → TransportOutcome) :
    (∀ res, HttpClient.download c url tov ctx transport = .ok res →
      dictGet res.meta "method" = some (.str "GET")) ∧
    (∀ (r : ℕ) (es : ℕ → RequestException), c.retries = (r : ℤ) →
      (∀ k, transport k = .reqExc (es k)) →
      (∀ k, ((es k).isTimeout || (es k).isConnError) = true) →
      ∀ res, HttpClient.download c url tov ctx transport = .ok res →
        res.attemptsMade = r + 1 ∧
        ∀ resg, HttpClient.get c url tov ctx transport = .ok resg →
          resg.attemptsMade = res.attemptsMade) := by
  cases hgt : c.getTimeout tov with
  | error msg =>
      constructor
      · intro res hres
        rw [show HttpClient.download c url tov ctx transport = .error msg
          from by simp [HttpClient.download, hgt]] at hres
        cases hres
      · intro r es hr hfail hretry res hres
        rw [show HttpClient.download c url tov ctx transport = .error msg
          from by simp [HttpClient.download, hgt]] at hres
        cases hres
  | ok tt =>
      have hdl : HttpClient.download c url tov ctx transport =
          .ok (HttpClient.requestRun c "GET" url ctx tt transport
            HttpClient.responseValue) := by
        simp [HttpClient.download, hgt]
      have hgetop : HttpClient.get c url tov ctx transport =
          .ok (HttpClient.requestRun c "GET" url ctx tt transport
            HttpClient.contentValue) := by
        simp [HttpClient.get, hgt]
      constructor
      · intro res hres
        rw [hdl] at hres
        cases hres
        exact (HttpClient.requestGo_meta_canonical c "GET" url ctx tt
          transport HttpClient.responseValue c.maxAttempts 0 []
          (HttpClient.maxAttempts_pos c) (Nat.zero_add _)).1
      · intro r es hr hfail hretry res hres
        rw [hdl] at hres
        cases hres
        have hretry2 : ∀ k,
            HttpClient.isRetryableException "GET" (es k) = true :=
          fun k => HttpClient.isRetryable_of_idempotent "GET" (es k)
            (Or.inl rfl) (hretry k)
        have hmax := HttpClient.maxAttempts_of_retries c r hr
        constructor
        · rw [HttpClient.requestRun_persist c "GET" url ctx tt transport
            HttpClient.responseValue es hfail hretry2, hmax]
          rfl
        · intro resg hresg
          rw [hgetop] at hresg
          cases hresg
          rw [HttpClient.requestRun_persist c "GET" url ctx tt transport
              HttpClient.contentValue es hfail hretry2,
            HttpClient.requestRun_persist c "GET" url ctx tt transport
              HttpClient.responseValue es hfail hretry2]
          rfl

/-- Witness for C10: with `retries = 1` and a transport that times out on
every attempt, download reports method GET and makes 2 attempts, as does
get. -/
theorem c10_witness :
    (∀ res, HttpClient.download { retries := 1 } "http://e.com" none []
        (fun _ => .reqExc
          { isTimeout := true, isConnError := false, typeName := "Timeout",
            msg := "boom", response := none }) = .ok res →
      dictGet res.meta "method" = some (.str "GET") ∧
      res.attemptsMade = 2) := by
  intro res hres
  have h := c10_download_is_get { retries := 1 } "http://e.com" none []
    (fun _ => .reqExc
      { isTimeout := true, isConnError := false, typeName := "Timeout",
        msg := "boom", response := none })
  exact ⟨h.1 res hres,
    (h.2 1 (fun _ =>
        { isTimeout := true, isConnError := false, typeName := "Timeout",
          msg := "boom", response := none })
      rfl (fun k => rfl) (fun k => rfl) res hres).1⟩

/-- C2: Error classification and propagation — every failure result of
the engine carries the classification of a transport exception the
transport actually raised (timeout to request-timeout, connection
failure to retryable-transport, anything else to generic client error,
each wrapping the original message); a valid (positive or absent)
timeout override makes every public operation return a typed result
rather than raise; and a non-positive override makes every public
operation raise the validation `ValueError` regardless of the transport,
before any request runs. -/
theorem c2_error_classification (c : HttpClientConfigData) (url : String)
    (ctx : Dict) :
    (∀ (V : Type) (vb : Response → V) (method : String) (t : TimeoutValue)
        (transport : ℕ → TransportOutcome) (err : LadonError),
      (HttpClient.requestRun c method url ctx t transport vb).error =
          some err →
      (∃ e, transport
          (HttpClient.requestRun c method url ctx t transport vb
            ).attemptsMade = .reqExc e ∧
        ((e.isTimeout = true ∧ err = .requestTimeout e.msg) ∨
         (e.isTimeout = false ∧ e.isConnError = true ∧
           err = .retryableHttp e.msg) ∨
         (e.isTimeout = false ∧ e.isConnError = false ∧
           err = .httpClient e.msg))) ∨
      (∃ tn m, transport
          (HttpClient.requestRun c method url ctx t transport vb
            ).attemptsMade = .otherExc tn m ∧ err = .httpClient m)) ∧
    (∀ tov : Option ℚ, (∀ q, tov = some q → 0 < q) →
      ∀ transport : ℕ → TransportOutcome,
        (∃ r1, HttpClient.get c url tov ctx transport = .ok r1) ∧
        (∃ r2, HttpClient.head c url tov ctx transport = .ok r2) ∧
        (∃ r3, HttpClient.post c url tov ctx transport = .ok r3) ∧
        (∃ r4, HttpClient.download c url tov ctx transport = .ok r4)) ∧
    (∀ q : ℚ, q ≤ 0 → ∀ transport : ℕ → TransportOutcome,
      HttpClient.get c url (some q) ctx transport =
        .error "timeout override must be > 0 when provided" ∧
      HttpClient.head c url (some q) ctx transport =
        .error "timeout override must be > 0 when provided" ∧
      HttpClient.post c url (some q) ctx transport =
        .error "timeout override must be > 0 when provided" ∧
      HttpClient.download c url (some q) ctx transport =
        .error "timeout override must be > 0 when provided") := by
  refine ⟨?_, ?_, ?_⟩
  · intro V vb method t transport err h
    have hc := HttpClient.requestGo_error_classified c method url ctx t
      transport vb c.maxAttempts 0 [] err h
    rcases hc with ⟨e, htr, heq⟩ | ⟨tn, m, htr, heq⟩
    · refine Or.inl ⟨e, htr, ?_⟩
      by_cases hT : e.isTimeout = true
      · exact Or.inl ⟨hT, by simpa [HttpClient.classifyError, hT] using heq⟩
      · by_cases hC : e.isConnError = true
        · refine Or.inr (Or.inl ⟨by simpa using hT, hC, ?_⟩)
          simpa [HttpClient.classifyError, hT, hC] using heq
        · refine Or.inr (Or.inr ⟨by simpa using hT, by simpa using hC, ?_⟩)
          simpa [HttpClient.classifyError, hT, hC] using heq
    · exact Or.inr ⟨tn, m, htr, heq⟩
  · intro tov hpos transport
    have hok : ∃ tt, c.getTimeout tov = .ok tt := by
      cases tov with
      | some q =>
          exact ⟨.scalar q, by
            simp [HttpClientConfigData.getTimeout,
              not_le.mpr (hpos q rfl)]⟩
      | none =>
          cases hcc : c.connect_timeout_seconds with
          | some ct =>
              cases hrd : c.read_timeout_seconds with
              | some rt =>
                  exact ⟨.pair ct rt, by
                    simp [HttpClientConfigData.getTimeout, hcc, hrd]⟩
              | none =>
                  cases ht : c.timeout_seconds with
                  | some ts =>
                      exact ⟨.scalar ts, by
                        simp [HttpClientConfigData.getTimeout, hcc, hrd, ht]⟩
                  | none =>
                      exact ⟨.noTimeout, by
                        simp [HttpClientConfigData.getTimeout, hcc, hrd, ht]⟩
          | none =>
              cases ht : c.timeout_seconds with
              | some ts =>
                  exact ⟨.scalar ts, by
                    simp [HttpClientConfigData.getTimeout, hcc, ht]⟩
              | none =>
                  exact ⟨.noTimeout, by
                    simp [HttpClientConfigData.getTimeout, hcc, ht]⟩
    obtain ⟨tt, htt⟩ := hok
    exact ⟨⟨HttpClient.requestRun c "GET" url ctx tt transport
        HttpClient.contentValue, by simp [HttpClient.get, htt]⟩,
      ⟨HttpClient.requestRun c "HEAD" url ctx tt transport
        HttpClient.headersValue, by simp [HttpClient.head, htt]⟩,
      ⟨HttpClient.requestRun c "POST" url ctx tt transport
        HttpClient.contentValue, by simp [HttpClient.post, htt]⟩,
      ⟨HttpClient.requestRun c "GET" url ctx tt transport
        HttpClient.responseValue, by simp [HttpClient.download, htt]⟩⟩
  · intro q hq transport
    have herr : c.getTimeout (some q) =
        .error "timeout override must be > 0 when provided" := by
      simp [HttpClientConfigData.getTimeout, hq]
    exact ⟨by simp [HttpClient.get, herr],
      by simp [HttpClient.head, herr],
      by simp [HttpClient.post, herr],
      by simp [HttpClient.download, herr]⟩

/-- Witness for C2: the constant connection-failure transport yields the
retryable-transport error wrapping the message, a valid call returns
`ok`, and a zero override is rejected. -/
theorem c2_witness :
    ((HttpClient.requestRun ({} : HttpClientConfigData) "POST" "http://e.com"
      [] (.scalar 5)
      (fun _ => .reqExc
        { isTimeout := false, isConnError := true,
          typeName := "ConnectionError", msg := "refused",
          response := none })
      HttpClient.contentValue).error = some (.retryableHttp "refused") →
        ∃ e, TransportOutcome.reqExc
          { isTimeout := false, isConnError := true,
            typeName := "ConnectionError", msg := "refused",
            response := none } = TransportOutcome.reqExc e ∧
          ((e.isTimeout = true ∧
             LadonError.retryableHttp "refused" = .requestTimeout e.msg) ∨
           (e.isTimeout = false ∧ e.isConnError = true ∧
             LadonError.retryableHttp "refused" = .retryableHttp e.msg) ∨
           (e.isTimeout = false ∧ e.isConnError = false ∧
             LadonError.retryableHttp "refused" = .httpClient e.msg))) ∧
    (∃ r1, HttpClient.get ({} : HttpClientConfigData) "http://e.com" none []
      (fun _ => .otherExc "RuntimeError" "m") = .ok r1) ∧
    HttpClient.post ({} : HttpClientConfigData) "http://e.com" (some 0) []
      (fun _ => .otherExc "RuntimeError" "m") =
      .error "timeout override must be > 0 when provided" := by
  refine ⟨?_, ?_, ?_⟩
  · intro h
    have hc := (c2_error_classification {} "http://e.com" []).1 String
      HttpClient.contentValue "POST" (.scalar 5) _ _ h
    rcases hc with ⟨e, htr, hcl⟩ | ⟨tn, m, htr, heq⟩
    · exact ⟨e, htr, hcl⟩
    · cases htr
  · exact ((c2_error_classification {} "http://e.com" []).2.1 none
      (fun q hq => by cases hq) (fun _ => .otherExc "RuntimeError" "m")).1
  · exact ((c2_error_classification {} "http://e.com" []).2.2 0 le_rfl
      (fun _ => .otherExc "RuntimeError" "m")).2.2.1

/-- C5: Metadata record contents — every run's metadata carries the
method, a final URL, the attempt count and the resolved timeout; when a
transport response was obtained the metadata constructor additionally
stores status code (under both keys), reason, the response-reported URL
(overwriting the request URL) and, when the response reports it, the
elapsed seconds; without a response the URL is the request URL; and on
terminal failure the run's metadata carries, under `final_error`, the
type name of the exception raised at the terminal attempt (the one
whose index is the recorded attempt count). -/
theorem c5_metadata_contents (c : HttpClientConfigData) (url : String)
    (ctx : Dict) (t : TimeoutValue)
    (transport : ℕ → TransportOutcome) :
    (∀ (V : Type) (vb : Response → V) (method : String),
      dictGet (HttpClient.requestRun c method url ctx t transport vb).meta
        "method" = some (.str method) ∧
      dictGet (HttpClient.requestRun c method url ctx t transport vb).meta
        "attempts" = some (.int
          (HttpClient.requestRun c method url ctx t transport vb
            ).attemptsMade) ∧
      dictGet (HttpClient.requestRun c method url ctx t transport vb).meta
        "timeout_s" = some (.tval t) ∧
      ∃ uu, dictGet
        (HttpClient.requestRun c method url ctx t transport vb).meta
        "url" = some (.str uu)) ∧
    (∀ (m u : String) (r : Response) (ctx2 : Dict) (a : ℕ)
        (t2 : TimeoutValue) (fe : Option String),
      dictGet (HttpClient.buildMeta m u (some r) ctx2 a t2 fe) "status" =
        some (.int r.status_code) ∧
      dictGet (HttpClient.buildMeta m u (some r) ctx2 a t2 fe)
        "status_code" = some (.int r.status_code) ∧
      dictGet (HttpClient.buildMeta m u (some r) ctx2 a t2 fe) "reason" =
        some (.str r.reason) ∧
      dictGet (HttpClient.buildMeta m u (some r) ctx2 a t2 fe) "url" =
        some (.str r.url) ∧
      (∀ q, r.elapsed_s = some q →
        dictGet (HttpClient.buildMeta m u (some r) ctx2 a t2 fe)
          "elapsed_s" = some (.rat q))) ∧
    (∀ (m u : String) (ctx2 : Dict) (a : ℕ) (t2 : TimeoutValue)
        (fe : Option String),
      dictGet (HttpClient.buildMeta m u none ctx2 a t2 fe) "url" =
        some (.str u)) ∧
    (∀ (V : Type) (vb : Response → V) (method : String) (err : LadonError),
      (HttpClient.requestRun c method url ctx t transport vb).error =
          some err →
      (∃ e, transport
          (HttpClient.requestRun c method url ctx t transport vb
            ).attemptsMade = .reqExc e ∧
        dictGet (HttpClient.requestRun c method url ctx t transport vb).meta
          "final_error" = some (.str e.typeName)) ∨
      (∃ tn msg, transport
          (HttpClient.requestRun c method url ctx t transport vb
            ).attemptsMade = .otherExc tn msg ∧
        dictGet (HttpClient.requestRun c method url ctx t transport vb).meta
          "final_error" = some (.str tn))) := by
  refine ⟨?_, ?_, ?_, ?_⟩
  · intro V vb method
    exact HttpClient.requestGo_meta_canonical c method url ctx t transport vb
      c.maxAttempts 0 [] (HttpClient.maxAttempts_pos c) (Nat.zero_add _)
  · intro m u r ctx2 a t2 fe
    exact ⟨HttpClient.dictGet_buildMeta_status m u r ctx2 a t2 fe,
      HttpClient.dictGet_buildMeta_status_code m u r ctx2 a t2 fe,
      HttpClient.dictGet_buildMeta_reason m u r ctx2 a t2 fe,
      HttpClient.dictGet_buildMeta_url_some m u r ctx2 a t2 fe,
      fun q hq => HttpClient.dictGet_buildMeta_elapsed m u r ctx2 a t2 fe
        q hq⟩
  · intro m u ctx2 a t2 fe
    exact HttpClient.dictGet_buildMeta_url_none m u ctx2 a t2 fe
  · intro V vb method err h
    exact HttpClient.requestGo_error_finalMeta c method url ctx t transport
      vb c.maxAttempts 0 [] err h

/-- Witness for C5: a concrete successful GET records method, attempts,
timeout, URL, status, reason and elapsed time; a concrete failing GET
records the terminal exception's type name under `final_error`. -/
theorem c5_witness :
    dictGet (HttpClient.buildMeta "GET" "http://e.com"
      (some { status_code := 200, reason := "OK", url := "http://e.com",
              elapsed_s := some 1, content := "hello", headers := [] })
      [] 1 (.scalar 5) none) "status_code" = some (.int 200) ∧
    dictGet (HttpClient.buildMeta "GET" "http://e.com"
      (some { status_code := 200, reason := "OK", url := "http://e.com",
              elapsed_s := some 1, content := "hello", headers := [] })
      [] 1 (.scalar 5) none) "elapsed_s" = some (.rat 1) ∧
    dictGet (HttpClient.requestRun ({} : HttpClientConfigData) "GET"
      "http://e.com" [] (.scalar 5)
      (fun _ => .reqExc
        { isTimeout := true, isConnError := false, typeName := "Timeout",
          msg := "boom", response := none })
      HttpClient.contentValue).meta "method" = some (.str "GET") ∧
    dictGet (HttpClient.requestRun ({} : HttpClientConfigData) "GET"
      "http://e.com" [] (.scalar 5)
      (fun _ => .reqExc
        { isTimeout := true, isConnError := false, typeName := "Timeout",
          msg := "boom", response := none })
      HttpClient.contentValue).meta "final_error" =
      some (.str "Timeout") := by
  refine ⟨?_, ?_, ?_, ?_⟩
  · exact ((c5_metadata_contents {} "http://e.com" [] (.scalar 5)
      (fun _ => .success
        { status_code := 200, reason := "OK", url := "http://e.com",
          elapsed_s := some 1, content := "hello", headers := [] })).2.1
      "GET" "http://e.com"
      { status_code := 200, reason := "OK", url := "http://e.com",
        elapsed_s := some 1, content := "hello", headers := [] }
      [] 1 (.scalar 5) none).2.1
  · exact ((c5_metadata_contents {} "http://e.com" [] (.scalar 5)
      (fun _ => .success
        { status_code := 200, reason := "OK", url := "http://e.com",
          elapsed_s := some 1, content := "hello", headers := [] })).2.1
      "GET" "http://e.com"
      { status_code := 200, reason := "OK", url := "http://e.com",
        elapsed_s := some 1, content := "hello", headers := [] }
      [] 1 (.scalar 5) none).2.2.2.2 1 rfl
  · exact ((c5_metadata_contents {} "http://e.com" [] (.scalar 5)
      (fun _ => .reqExc
        { isTimeout := true, isConnError := false, typeName := "Timeout",
          msg := "boom", response := none })).1 String
      HttpClient.contentValue "GET").1
  · have herr : (HttpClient.requestRun ({} : HttpClientConfigData) "GET"
        "http://e.com" [] (.scalar 5)
        (fun _ => .reqExc
          { isTimeout := true, isConnError := false, typeName := "Timeout",
            msg := "boom", response := none })
        HttpClient.contentValue).error =
        some (.requestTimeout "boom") := by
      simp [HttpClient.requestRun, HttpClient.requestGo,
        HttpClientConfigData.maxAttempts, HttpClient.handleRequestException,
        HttpClient.classifyError]
    have h4 := (c5_metadata_contents {} "http://e.com" [] (.scalar 5)
      (fun _ => .reqExc
        { isTimeout := true, isConnError := false, typeName := "Timeout",
          msg := "boom", response := none })).2.2.2 String
      HttpClient.contentValue "GET" (.requestTimeout "boom") herr
    rcases h4 with ⟨e, htr, hfe⟩ | ⟨tn, m, htr, hfe⟩
    · cases htr
      exact hfe
    · cases htr

/-- C6: HTTP status is never an error — whenever the transport returns a
response (any status code: 404, 500, or a 302 left unfollowed), the
result is `ok` with `status_code` in the metadata and the
operation-specific value populated: body bytes for GET and POST, the
header mapping for HEAD, the response handle for download; this holds at
the first attempt and after any run of retryable failures. -/
theorem c6_status_never_error (c : HttpClientConfigData) (url : String)
    (ctx : Dict) (t : TimeoutValue) :
    (∀ (transport : ℕ → TransportOutcome) (K : ℕ) (rr : Response),
      transport K = .success rr →
      (∀ j, 0 < j → j < K → ∃ e, transport j = .reqExc e ∧
        HttpClient.isRetryableException "GET" e = true) →
      1 ≤ K → K ≤ c.maxAttempts →
      (HttpClient.requestRun c "GET" url ctx t transport
        HttpClient.contentValue).ok = true ∧
      dictGet (HttpClient.requestRun c "GET" url ctx t transport
        HttpClient.contentValue).meta "status_code" =
        some (.int rr.status_code) ∧
      (HttpClient.requestRun c "GET" url ctx t transport
        HttpClient.contentValue).value = some rr.content) ∧
    (∀ (transport : ℕ → TransportOutcome) (K : ℕ) (rr : Response),
      transport K = .success rr →
      (∀ j, 0 < j → j < K → ∃ e, transport j = .reqExc e ∧
        HttpClient.isRetryableException "HEAD" e = true) →
      1 ≤ K → K ≤ c.maxAttempts →
      (HttpClient.requestRun c "HEAD" url ctx t transport
        HttpClient.headersValue).ok = true ∧
      dictGet (HttpClient.requestRun c "HEAD" url ctx t transport
        HttpClient.headersValue).meta "status_code" =
        some (.int rr.status_code) ∧
      (HttpClient.requestRun c "HEAD" url ctx t transport
        HttpClient.headersValue).value = some rr.headers) ∧
    (∀ (transport : ℕ → TransportOutcome) (K : ℕ) (rr : Response),
      transport K = .success rr →
      (∀ j, 0 < j → j < K → ∃ e, transport j = .reqExc e ∧
        HttpClient.isRetryableException "GET" e = true) →
      1 ≤ K → K ≤ c.maxAttempts →
      (HttpClient.requestRun c "GET" url ctx t transport
        HttpClient.responseValue).ok = true ∧
      dictGet (HttpClient.requestRun c "GET" url ctx t transport
        HttpClient.responseValue).meta "status_code" =
        some (.int rr.status_code) ∧
      (HttpClient.requestRun c "GET" url ctx t transport
        HttpClient.responseValue).value = some rr) ∧
    (∀ (transport : ℕ → TransportOutcome) (rr : Response),
      transport 1 = .success rr →
      (HttpClient.requestRun c "POST" url ctx t transport
        HttpClient.contentValue).ok = true ∧
      dictGet (HttpClient.requestRun c "POST" url ctx t transport
        HttpClient.contentValue).meta "status_code" =
        some (.int rr.status_code) ∧
      (HttpClient.requestRun c "POST" url ctx t transport
        HttpClient.contentValue).value = some rr.content) := by
  have hgen : ∀ (V : Type) (vb : Response → V) (method : String)
      (transport : ℕ → TransportOutcome) (K : ℕ) (rr : Response),
      transport K = .success rr →
      (∀ j, 0 < j → j < K → ∃ e, transport j = .reqExc e ∧
        HttpClient.isRetryableException method e = true) →
      1 ≤ K → K ≤ c.maxAttempts →
      (HttpClient.requestRun c method url ctx t transport vb).ok = true ∧
      dictGet (HttpClient.requestRun c method url ctx t transport vb).meta
        "status_code" = some (.int rr.status_code) ∧
      (HttpClient.requestRun c method url ctx t transport vb).value =
        some (vb rr) := by
    intro V vb method transport K rr hsucc hfails hK1 hK2
    have h := HttpClient.requestGo_success_at c method url ctx t transport
      vb K rr hsucc hfails c.maxAttempts 0 [] (by omega)
      (by omega) (Nat.zero_add _)
    refine ⟨h.1, ?_, h.2.1⟩
    rw [show HttpClient.requestRun c method url ctx t transport vb =
      HttpClient.requestGo c method url ctx t transport vb c.maxAttempts
        0 [] from rfl]
    rw [h.2.2.1]
    exact HttpClient.dictGet_buildMeta_status_code method url rr ctx K t none
  refine ⟨fun transport K rr h1 h2 h3 h4 =>
      hgen String HttpClient.contentValue "GET" transport K rr h1 h2 h3 h4,
    fun transport K rr h1 h2 h3 h4 =>
      hgen (List (String × String)) HttpClient.headersValue "HEAD" transport
        K rr h1 h2 h3 h4,
    fun transport K rr h1 h2 h3 h4 =>
      hgen Response HttpClient.responseValue "GET" transport K rr h1 h2 h3
        h4,
    fun transport rr h1 =>
      hgen String HttpClient.contentValue "POST" transport 1 rr h1
        (fun j hj1 hj2 => absurd hj1 (by omega)) le_rfl
        (HttpClient.maxAttempts_pos c)⟩

/-- Witness for C6: a 404 response at the first attempt yields an `ok`
GET result with `status_code = 404` and the body bytes as its value. -/
theorem c6_witness :
    (HttpClient.requestRun ({} : HttpClientConfigData) "GET" "http://e.com"
      [] (.scalar 5)
      (fun _ => .success
        { status_code := 404, reason := "Not Found", url := "http://e.com",
          elapsed_s := some 1, content := "missing", headers := [] })
      HttpClient.contentValue).ok = true ∧
    dictGet (HttpClient.requestRun ({} : HttpClientConfigData) "GET"
      "http://e.com" [] (.scalar 5)
      (fun _ => .success
        { status_code := 404, reason := "Not Found", url := "http://e.com",
          elapsed_s := some 1, content := "missing", headers := [] })
      HttpClient.contentValue).meta "status_code" = some (.int 404) ∧
    (HttpClient.requestRun ({} : HttpClientConfigData) "GET" "http://e.com"
      [] (.scalar 5)
      (fun _ => .success
        { status_code := 404, reason := "Not Found", url := "http://e.com",
          elapsed_s := some 1, content := "missing", headers := [] })
      HttpClient.contentValue).value = some "missing" := by
  exact (c6_status_never_error {} "http://e.com" [] (.scalar 5)).1
    (fun _ => .success
      { status_code := 404, reason := "Not Found", url := "http://e.com",
        elapsed_s := some 1, content := "missing", headers := [] })
    1
    { status_code := 404, reason := "Not Found", url := "http://e.com",
      elapsed_s := some 1, content := "missing", headers := [] }
    rfl (fun j hj1 hj2 => absurd hj1 (by omega)) le_rfl
    (HttpClient.maxAttempts_pos {})

/-- C7: Context merge rule — for a context mapping with distinct keys,
the full context is preserved verbatim under `"context"`, every entry
whose key is not one of the engine's canonical keys also appears as a
top-level default, and no context entry overwrites a canonical field:
method, attempt count, resolved timeout and the URL all keep their
engine-assigned values. -/
theorem c7_context_merge (m u : String) (resp : Option Response)
    (ctx : Dict) (a : ℕ) (t : TimeoutValue) (fe : Option String)
    (hnod : (ctx.map Prod.fst).Nodup) :
    (ctx ≠ [] →
      dictGet (HttpClient.buildMeta m u resp ctx a t fe) "context" =
        some (.dict ctx)) ∧
    (∀ k v, (k, v) ∈ ctx → k ∉ HttpClient.canonicalMetaKeys →
      dictGet (HttpClient.buildMeta m u resp ctx a t fe) k = some v) ∧
    dictGet (HttpClient.buildMeta m u resp ctx a t fe) "method" =
      some (.str m) ∧
    dictGet (HttpClient.buildMeta m u resp ctx a t fe) "attempts" =
      some (.int a) ∧
    dictGet (HttpClient.buildMeta m u resp ctx a t fe) "timeout_s" =
      some (.tval t) ∧
    (resp = none →
      dictGet (HttpClient.buildMeta m u resp ctx a t fe) "url" =
        some (.str u)) ∧
    (∀ r, resp = some r →
      dictGet (HttpClient.buildMeta m u resp ctx a t fe) "url" =
        some (.str r.url)) := by
  refine ⟨fun hne => HttpClient.dictGet_buildMeta_context m u resp ctx a t
      fe hne,
    fun k v hmem hk => HttpClient.dictGet_buildMeta_of_mem m u resp ctx a t
      fe k v hnod hmem hk,
    HttpClient.dictGet_buildMeta_method m u resp ctx a t fe,
    HttpClient.dictGet_buildMeta_attempts m u resp ctx a t fe,
    HttpClient.dictGet_buildMeta_timeout m u resp ctx a t fe,
    fun hr => ?_, fun r hr => ?_⟩
  · subst hr
    exact HttpClient.dictGet_buildMeta_url_none m u ctx a t fe
  · subst hr
    exact HttpClient.dictGet_buildMeta_url_some m u r ctx a t fe

/-- Witness for C7 at the claim's concrete instance: a successful GET to
URL B with context mapping url to A and method to PATCH keeps
`meta.url = B` and `meta.method = GET`, stores the context verbatim
(`context.url = A`, `context.method = PATCH`), and merges the
non-canonical entry `trace` at top level. -/
theorem c7_witness :
    dictGet (HttpClient.buildMeta "GET" "http://B"
      (some { status_code := 200, reason := "OK", url := "http://B",
              elapsed_s := some 1, content := "x", headers := [] })
      [("url", .str "A"), ("method", .str "PATCH"), ("trace", .str "t1")]
      1 (.scalar 5) none) "method" = some (.str "GET") ∧
    dictGet (HttpClient.buildMeta "GET" "http://B"
      (some { status_code := 200, reason := "OK", url := "http://B",
              elapsed_s := some 1, content := "x", headers := [] })
      [("url", .str "A"), ("method", .str "PATCH"), ("trace", .str "t1")]
      1 (.scalar 5) none) "url" = some (.str "http://B") ∧
    dictGet (HttpClient.buildMeta "GET" "http://B"
      (some { status_code := 200, reason := "OK", url := "http://B",
              elapsed_s := some 1, content := "x", headers := [] })
      [("url", .str "A"), ("method", .str "PATCH"), ("trace", .str "t1")]
      1 (.scalar 5) none) "context" =
      some (.dict [("url", .str "A"), ("method", .str "PATCH"),
        ("trace", .str "t1")]) ∧
    dictGet [("url", MetaValue.str "A"), ("method", .str "PATCH"),
      ("trace", .str "t1")] "url" = some (.str "A") ∧
    dictGet [("url", MetaValue.str "A"), ("method", .str "PATCH"),
      ("trace", .str "t1")] "method" = some (.str "PATCH") ∧
    dictGet (HttpClient.buildMeta "GET" "http://B"
      (some { status_code := 200, reason := "OK", url := "http://B",
              elapsed_s := some 1, content := "x", headers := [] })
      [("url", .str "A"), ("method", .str "PATCH"), ("trace", .str "t1")]
      1 (.scalar 5) none) "trace" = some (.str "t1") := by
  have h := c7_context_merge "GET" "http://B"
    (some { status_code := 200, reason := "OK", url := "http://B",
            elapsed_s := some 1, content := "x", headers := [] })
    [("url", .str "A"), ("method", .str "PATCH"), ("trace", .str "t1")]
    1 (.scalar 5) none (by simp)
  refine ⟨h.2.2.1, h.2.2.2.2.2.2 _ rfl, h.1 (by simp), rfl, rfl, ?_⟩
  exact h.2.1 "trace" (.str "t1") (by simp) (by decide)

end Ladon
